import Mathlib

/-
Verification of the core relational engine of the Olympic_Data_Analysis
repository: the CSV tokenizer (`src/utils.py`) and the columnar DataFrame
with filter / aggregation / grouping / join (`src/dataframe_loader.py`).

The Python code is shallowly embedded: cell values become the inductive
`Value`, Python dicts that map names to lists (`defaultdict(list)`,
`dict` of columns) become insertion-ordered association lists, and
fallible operations return `Except PyError`.  Python `set` objects used
by `join` (`left_cols`, `right_cols`, `overlap`, `matched_left`,
`matched_right`) have unspecified iteration order in Python; they are
embedded as lists (in the deterministic order in which the source would
have inserted their elements) and are only ever consumed through
membership tests and per-element iteration, so the set semantics is
preserved up to column ordering of the result.
-/

/-- A Python cell value as used by the repository: strings (everything the
CSV loader produces), ints, floats (represented exactly: `rat q` is the
rational result of a true division or a numpy mean/variance, `sqrtOf q`
stands for the square root `np.std` returns), and `None` (the join engine's
fill value for unmatched rows). -/
inductive Value where
  | str : String → Value
  | int : Int → Value
  | rat : ℚ → Value
  | sqrtOf : ℚ → Value
  | none : Value
deriving DecidableEq, Repr

/-- Whether a value is a Python number (int or float). -/
def Value.isNumeric : Value → Bool
  | .int _ => true
  | .rat _ => true
  | .sqrtOf _ => true
  | _ => false

/-- The Python exception types the embedded code can raise. -/
inductive PyError where
  | typeError : PyError
  | valueError : PyError
  | keyError : PyError
deriving DecidableEq, Repr

/-! ### Insertion-ordered dictionaries

`dAppend d k v` embeds `d[k].append(v)` on a `defaultdict(list)`:
if the key is present its list grows at the end, otherwise the key is
inserted at the end of the dict (Python dicts preserve insertion order). -/

def dAppend {κ α : Type} [DecidableEq κ] : List (κ × List α) → κ → α → List (κ × List α)
  | [], k, v => [(k, [v])]
  | (k', vs) :: rest, k, v =>
      if k' = k then (k', vs ++ [v]) :: rest else (k', vs) :: dAppend rest k v

/-- `dGet d k` embeds `d.get(k, [])`. -/
def dGet {κ α : Type} [DecidableEq κ] : List (κ × List α) → κ → List α
  | [], _ => []
  | (k', vs) :: rest, k => if k' = k then vs else dGet rest k

/-- `dSet d k v` embeds plain dict assignment `d[k] = v`: an existing key
keeps its position and gets the new value, a new key is appended. -/
def dSet {κ α : Type} [DecidableEq κ] (d : List (κ × α)) (k : κ) (v : α) : List (κ × α) :=
  if k ∈ d.map Prod.fst then d.map (fun p => if p.1 = k then (k, v) else p) else d ++ [(k, v)]

/-- One emitted output row: `ps` is the list of `(output column, value)`
pairs appended by the source's per-column `result_data[name].append(value)`
loop, executed left to right. -/
def emitPairs (acc : List (String × List Value)) (ps : List (String × Value)) :
    List (String × List Value) :=
  ps.foldl (fun a p => dAppend a p.1 p.2) acc

/-- Value of an emitted row at an output column (first pair wins, as in a
Python dict built left to right). -/
def pval (ps : List (String × Value)) (nm : String) : Value :=
  match ps.find? (fun p => p.1 = nm) with
  | some p => p.2
  | Option.none => Value.none

/-- The columnar dictionary obtained after emitting the rows `pss` one by
one into an initially empty `defaultdict(list)`, provided every row binds
exactly the columns `names` in that order. -/
def colsOfRows (names : List String) (pss : List (List (String × Value))) :
    List (String × List Value) :=
  if pss.isEmpty then [] else names.map (fun nm => (nm, pss.map (fun ps => pval ps nm)))

/-! ### The CSV tokenizer (`_parse_csv` in `src/utils.py`) -/

/-- Record finalization at a line terminator (`src/utils.py` lines 56-58):
a row is kept unless it is completely empty with at most one field, i.e.
a genuinely blank line. -/
def endRecord (rows : List (List String)) (row : List String) : List (List String) :=
  if row.any (fun cell => cell != "") ∨ 1 < row.length then rows ++ [row] else rows

/-- The two-state character scanner of `_parse_csv`, one constructor case
per branch of the Python `while` loop; `rows`, `row`, `field_chars` and
`in_quotes` are the loop's mutable state. -/
def parseAux (delimiter quote_char : Char) (rows : List (List String))
    (row : List String) (field_chars : List Char) (in_quotes : Bool)
    (cs : List Char) : Except String (List (List String)) :=
  match cs with
  | [] =>
      if in_quotes then .error "Unterminated quoted field at end of input"
      else if field_chars ≠ [] ∨ row ≠ [] then
        .ok (rows ++ [row ++ [field_chars.asString]])
      else .ok rows
  | ch :: cs' =>
      if in_quotes then
        if ch = quote_char then
          match cs' with
          | nxt :: cs'' =>
              if nxt = quote_char then
                parseAux delimiter quote_char rows row (field_chars ++ [quote_char]) true cs''
              else
                parseAux delimiter quote_char rows row field_chars false (nxt :: cs'')
          | [] => parseAux delimiter quote_char rows row field_chars false []
        else parseAux delimiter quote_char rows row (field_chars ++ [ch]) true cs'
      else if ch = quote_char then
        if field_chars ≠ [] then .error "Unexpected quote inside unquoted field"
        else parseAux delimiter quote_char rows row field_chars true cs'
      else if ch = delimiter then
        parseAux delimiter quote_char rows (row ++ [field_chars.asString]) [] false cs'
      else if ch = '\r' ∨ ch = '\n' then
        let rows' := endRecord rows (row ++ [field_chars.asString])
        if ch = '\r' then
          match cs' with
          | nxt :: cs'' =>
              if nxt = '\n' then parseAux delimiter quote_char rows' [] [] false cs''
              else parseAux delimiter quote_char rows' [] [] false (nxt :: cs'')
          | [] => parseAux delimiter quote_char rows' [] [] false []
        else parseAux delimiter quote_char rows' [] [] false cs'
      else parseAux delimiter quote_char rows row (field_chars ++ [ch]) false cs'
termination_by cs.length
decreasing_by all_goals (simp_all; try omega)

/-- `_parse_csv(text, delimiter, quote_char)`. -/
def parse_csv (text : String) (delimiter : Char := ',') (quote_char : Char := '"') :
    Except String (List (List String)) :=
  parseAux delimiter quote_char [] [] [] false text.toList

/-- The header-handling step of `read_csv(..., has_header=True)`
(`src/utils.py` lines 99-115): the first parsed row becomes the column
names, each later row is padded / truncated to the header's length and
turned into a name-keyed record. -/
def read_csv_records (text : String) (delimiter : Char := ',') (quote_char : Char := '"') :
    Except String (List (List (String × String))) := do
  let rows ← parse_csv text delimiter quote_char
  match rows with
  | [] => pure []
  | header :: rest =>
      pure (rest.map (fun r =>
        let padded :=
          if r.length < header.length then r ++ List.replicate (header.length - r.length) ""
          else r.take header.length
        (List.range header.length).map (fun i => (header.getD i "", padded.getD i ""))))

deriving instance DecidableEq for Except

/-! ### The DataFrame (`src/dataframe_loader.py`) -/

/-- The columnar store `self._data`: an insertion-ordered dict from column
name to list of cell values. -/
structure DataFrame where
  cols : List (String × List Value)
deriving DecidableEq, Repr

/-- `list(self._data.keys())`. -/
def DataFrame.columns (df : DataFrame) : List String := df.cols.map Prod.fst

/-- `self._length`: the length of the first column, `0` for an empty dict
(`DataFrame.__init__` lines 39-51). -/
def DataFrame.len (df : DataFrame) : Nat :=
  match df.cols with
  | [] => 0
  | c :: _ => c.2.length

/-- `DataFrame.__init__`: an empty dict is accepted as the empty table,
otherwise all columns must have the same length (`ValueError`). -/
def mkDF (data : List (String × List Value)) : Except PyError DataFrame :=
  if data.isEmpty then .ok ⟨[]⟩
  else if 1 < (data.map (fun c => c.2.length)).dedup.length then .error .valueError
  else .ok ⟨data⟩

/-- The invariant a `DataFrame` built from a Python dict satisfies: unique
column names and equal column lengths. -/
def DataFrame.WF (df : DataFrame) : Prop :=
  df.columns.Nodup ∧ ∀ c ∈ df.cols, c.2.length = df.len

instance (df : DataFrame) : Decidable df.WF := by unfold DataFrame.WF; infer_instance

/-- `self._data[name]`, defaulting to `[]` (the source only reads columns
it has validated to exist). -/
def getColD (df : DataFrame) (name : String) : List Value :=
  match df.cols.find? (fun c => c.1 = name) with
  | some c => c.2
  | Option.none => []

/-- The transient single-row view `{col: self._data[col][i] for col in
self._data}` used by `filter` (out-of-range access is unreachable under
`WF`; it defaults to `None`). -/
def rowOf (df : DataFrame) (i : Nat) : List (String × Value) :=
  df.cols.map (fun c => (c.1, c.2.getD i Value.none))

/-- `DataFrame.filter` (lines 118-139): evaluate the condition once per
row and append each passing row's cells column by column into a fresh
`defaultdict(list)`. -/
def DataFrame.filter (df : DataFrame) (condition : List (String × Value) → Bool) :
    Except PyError DataFrame :=
  let filtered_data :=
    (List.range df.len).foldl (fun acc i =>
      if condition (rowOf df i) then emitPairs acc (rowOf df i) else acc) []
  mkDF filtered_data

/-! ### Aggregation (`_apply_aggregation`, lines 214-230)

Python's dynamically typed arithmetic and comparisons on cell values:
numbers mix freely, strings add/compare with strings, everything else is
a `TypeError`.  `Value.sqrtOf` only ever occurs as an *output* of `std`
(aggregates are never fed back into a column in the repository), so
arithmetic on it is conservatively mapped to `TypeError`. -/

def pyAdd : Value → Value → Except PyError Value
  | .int a, .int b => .ok (.int (a + b))
  | .int a, .rat b => .ok (.rat ((a : ℚ) + b))
  | .rat a, .int b => .ok (.rat (a + (b : ℚ)))
  | .rat a, .rat b => .ok (.rat (a + b))
  | .str a, .str b => .ok (.str (a ++ b))
  | _, _ => .error .typeError

/-- Python's builtin `sum`: a left fold of `+` starting from the int `0`. -/
def pySum (values : List Value) : Except PyError Value :=
  values.foldlM pyAdd (Value.int 0)

/-- Lexicographic comparison of strings by code point, exactly Python's
(and Lean's) string order, written structurally so it evaluates. -/
def charListLt : List Char → List Char → Bool
  | [], [] => false
  | [], _ :: _ => true
  | _ :: _, [] => false
  | a :: as, b :: bs => if a < b then true else if b < a then false else charListLt as bs

def pyLt : Value → Value → Except PyError Bool
  | .int a, .int b => .ok (decide (a < b))
  | .int a, .rat b => .ok (decide ((a : ℚ) < b))
  | .rat a, .int b => .ok (decide (a < (b : ℚ)))
  | .rat a, .rat b => .ok (decide (a < b))
  | .str a, .str b => .ok (charListLt a.toList b.toList)
  | _, _ => .error .typeError

/-- Python's builtin `min`: the first element, improved whenever a later
element compares strictly smaller; empty input is a `ValueError`. -/
def pyMin : List Value → Except PyError Value
  | [] => .error .valueError
  | v :: rest => rest.foldlM (fun m x => do
      if (← pyLt x m) then pure x else pure m) v

/-- Python's builtin `max`, symmetrically. -/
def pyMax : List Value → Except PyError Value
  | [] => .error .valueError
  | v :: rest => rest.foldlM (fun m x => do
      if (← pyLt m x) then pure x else pure m) v

/-- Python 3 true division of an aggregate by a positive count. -/
def pyDiv (v : Value) (n : Nat) : Except PyError Value :=
  match v with
  | .int a => .ok (.rat ((a : ℚ) / (n : ℚ)))
  | .rat a => .ok (.rat (a / (n : ℚ)))
  | _ => .error .typeError

/-- The `'mean'` lambda: `sum(x) / len(x) if len(x) > 0 else 0`. -/
def pyMean (values : List Value) : Except PyError Value :=
  if 0 < values.length then do
    let s ← pySum values
    pyDiv s values.length
  else .ok (.int 0)

/-- Conversion to an exact number, as numpy's reductions require; any
non-numeric entry makes `np.std` / `np.var` raise a `TypeError`. -/
def valueToRat : Value → Option ℚ
  | .int a => some ((a : Int) : ℚ)
  | .rat q => some q
  | _ => Option.none

/-- Convert a whole column, failing if any entry is non-numeric. -/
def ratList : List Value → Option (List ℚ)
  | [] => some []
  | v :: vs =>
      match valueToRat v, ratList vs with
      | some q, some qs => some (q :: qs)
      | _, _ => Option.none

/-- `np.var(x)`: the population variance, exact over ℚ. -/
def npVar (values : List Value) : Except PyError Value :=
  match ratList values with
  | some qs =>
      let n : ℚ := (qs.length : ℚ)
      let mu := qs.sum / n
      .ok (.rat ((qs.map (fun q => (q - mu) ^ 2)).sum / n))
  | Option.none => .error .typeError

/-- `np.std(x)`: the square root of the population variance. -/
def npStd (values : List Value) : Except PyError Value :=
  match ratList values with
  | some qs =>
      let n : ℚ := (qs.length : ℚ)
      let mu := qs.sum / n
      .ok (.sqrtOf ((qs.map (fun q => (q - mu) ^ 2)).sum / n))
  | Option.none => .error .typeError

/-- `DataFrame._apply_aggregation(values, func)` for a string `func`:
the `func_map` dispatch; an unknown name raises `ValueError`. -/
def apply_aggregation (values : List Value) (func : String) : Except PyError Value :=
  match func with
  | "sum" => pySum values
  | "mean" => pyMean values
  | "min" => pyMin values
  | "max" => pyMax values
  | "count" => .ok (.int values.length)
  | "std" => if 0 < values.length then npStd values else .ok (.int 0)
  | "var" => if 0 < values.length then npVar values else .ok (.int 0)
  | _ => .error .valueError

/-- `DataFrame.agg` (lines 179-212): whole-table aggregation, one output
column (holding a single value) per requested column/aggregator pair;
aggregator lists are already in normalized list form. -/
def DataFrame.agg (df : DataFrame) (aggregations : List (String × List String)) :
    Except PyError DataFrame := do
  let result ← aggregations.foldlM (fun result p => do
    let (col, funcs) := p
    if col ∈ df.columns then
      funcs.foldlM (fun result func => do
        let agg_value ← apply_aggregation (getColD df col) func
        let result_key := if 1 < funcs.length then col ++ "_" ++ func else col
        pure (dSet result result_key [agg_value])) result
    else .error .keyError) []
  mkDF result

/-! ### Grouping (`GroupedDataFrame`, lines 395-461) -/

/-- The ordered tuple `tuple(self._data[col][i] for col in cols)`. -/
def keyOf (df : DataFrame) (cols : List String) (i : Nat) : List Value :=
  cols.map (fun col => (getColD df col).getD i Value.none)

/-- `GroupedDataFrame._build_groups` (lines 412-418): scan rows in order
and append each row index to its key's list in a `defaultdict(list)`. -/
def build_groups (df : DataFrame) (group_cols : List String) : List (List Value × List Nat) :=
  (List.range df.len).foldl (fun groups i => dAppend groups (keyOf df group_cols i) i) []

/-- `GroupedDataFrame.agg` (lines 420-461): for each group in first-seen
order, append the group-key values under the group-by column names and
then one aggregate per requested column/aggregator pair. -/
def grouped_agg (df : DataFrame) (group_cols : List String)
    (aggregations : List (String × List String)) : Except PyError DataFrame := do
  let result_data ← (build_groups df group_cols).foldlM (fun result_data g => do
    let (group_key, indices) := g
    let result_data := group_cols.enum.foldl
      (fun acc p => dAppend acc p.2 (group_key.getD p.1 Value.none)) result_data
    aggregations.foldlM (fun acc p => do
      let (col, funcs) := p
      if col ∈ df.columns then
        let group_values := indices.map (fun idx => (getColD df col).getD idx Value.none)
        funcs.foldlM (fun acc func => do
          let agg_value ← apply_aggregation group_values func
          let result_key := if 1 < funcs.length then col ++ "_" ++ func else col
          pure (dAppend acc result_key agg_value)) acc
      else .error .keyError) result_data) []
  mkDF result_data

/-! ### The join engine (`DataFrame.join`, lines 232-392) -/

/-- `set(self._data.keys()) - set(on)`, iterated in column order. -/
def left_cols (L : DataFrame) (onCols : List String) : List String :=
  L.columns.filter (fun c => decide (c ∉ onCols))

/-- `set(other._data.keys()) - set(on)`, iterated in column order. -/
def right_cols (R : DataFrame) (onCols : List String) : List String :=
  R.columns.filter (fun c => decide (c ∉ onCols))

/-- `left_cols & right_cols`: the overlapping non-key column names. -/
def overlapCols (L R : DataFrame) (onCols : List String) : List String :=
  (left_cols L onCols).filter (fun c => decide (c ∈ right_cols R onCols))

/-- `col + suffix if col in overlap else col`. -/
def outColName (overlap : List String) (sfx : String) (col : String) : String :=
  if col ∈ overlap then col ++ sfx else col

/-- The per-column appends for a matched output row: join keys from the
left row `i`, then left non-key columns of row `i`, then right non-key
columns of right row `j`. -/
def matchPairs (L R : DataFrame) (onCols : List String) (suffixes : String × String)
    (i j : Nat) : List (String × Value) :=
  onCols.map (fun col => (col, (getColD L col).getD i Value.none))
  ++ (left_cols L onCols).map (fun col =>
       (outColName (overlapCols L R onCols) suffixes.1 col, (getColD L col).getD i Value.none))
  ++ (right_cols R onCols).map (fun col =>
       (outColName (overlapCols L R onCols) suffixes.2 col, (getColD R col).getD j Value.none))

/-- The appends for an unmatched left row: its keys and left columns,
`None` for every right non-key column. -/
def leftNullPairs (L R : DataFrame) (onCols : List String) (suffixes : String × String)
    (i : Nat) : List (String × Value) :=
  onCols.map (fun col => (col, (getColD L col).getD i Value.none))
  ++ (left_cols L onCols).map (fun col =>
       (outColName (overlapCols L R onCols) suffixes.1 col, (getColD L col).getD i Value.none))
  ++ (right_cols R onCols).map (fun col =>
       (outColName (overlapCols L R onCols) suffixes.2 col, Value.none))

/-- The appends for an unmatched right row: its keys, `None` for every
left non-key column, then its right columns. -/
def rightNullPairs (L R : DataFrame) (onCols : List String) (suffixes : String × String)
    (j : Nat) : List (String × Value) :=
  onCols.map (fun col => (col, (getColD R col).getD j Value.none))
  ++ (left_cols L onCols).map (fun col =>
       (outColName (overlapCols L R onCols) suffixes.1 col, Value.none))
  ++ (right_cols R onCols).map (fun col =>
       (outColName (overlapCols L R onCols) suffixes.2 col, (getColD R col).getD j Value.none))

/-- The hash index over the right side (lines 260-264). -/
def right_index (R : DataFrame) (onCols : List String) : List (List Value × List Nat) :=
  (List.range R.len).foldl (fun idx j => dAppend idx (keyOf R onCols j) j) []

/-- The hash index over the left side, used when driving a right join. -/
def left_index (L : DataFrame) (onCols : List String) : List (List Value × List Nat) :=
  (List.range L.len).foldl (fun idx i => dAppend idx (keyOf L onCols i) i) []

/-- `DataFrame.join` (lines 232-392): validate keys, build the right
index, then run each of the three sequential `if how ...` blocks over an
initially empty `result_data`; an unrecognized `how` runs none of them. -/
def DataFrame.join (L : DataFrame) (other : DataFrame) (onCols : List String)
    (how : String) (suffixes : String × String) : Except PyError DataFrame := do
  if ¬ (∀ col ∈ onCols, col ∈ L.columns) then .error .keyError else
  if ¬ (∀ col ∈ onCols, col ∈ other.columns) then .error .keyError else do
  let rIdx := right_index other onCols
  let d0 : List (String × List Value) := []
  let d1 :=
    if how = "inner" ∨ how = "left" then
      (List.range L.len).foldl (fun acc i =>
        let right_matches := dGet rIdx (keyOf L onCols i)
        if right_matches ≠ [] then
          right_matches.foldl (fun a j => emitPairs a (matchPairs L other onCols suffixes i j)) acc
        else if how = "left" then emitPairs acc (leftNullPairs L other onCols suffixes i)
        else acc) d0
    else d0
  let d2 :=
    if how = "right" then
      let lIdx := left_index L onCols
      (List.range other.len).foldl (fun acc j =>
        let left_matches := dGet lIdx (keyOf other onCols j)
        if left_matches ≠ [] then
          left_matches.foldl (fun a i => emitPairs a (matchPairs L other onCols suffixes i j)) acc
        else emitPairs acc (rightNullPairs L other onCols suffixes j)) d1
    else d1
  let d3 :=
    if how = "outer" then
      let s := (List.range L.len).foldl (fun s i =>
        let (acc, matched_left, matched_right) := s
        let right_matches := dGet rIdx (keyOf L onCols i)
        if right_matches ≠ [] then
          let inner := right_matches.foldl (fun p j =>
            (emitPairs p.1 (matchPairs L other onCols suffixes i j), p.2 ++ [j]))
            (acc, matched_right)
          (inner.1, matched_left ++ [i], inner.2)
        else s) (d2, ([] : List Nat), ([] : List Nat))
      let d := (List.range L.len).foldl (fun acc i =>
        if i ∉ s.2.1 then emitPairs acc (leftNullPairs L other onCols suffixes i) else acc) s.1
      (List.range other.len).foldl (fun acc j =>
        if j ∉ s.2.2 then emitPairs acc (rightNullPairs L other onCols suffixes j) else acc) d
    else d2
  mkDF d3

/-! ### Lemmas about the dictionary embedding -/

theorem dGet_dAppend {κ α : Type} [DecidableEq κ] (d : List (κ × List α)) (k' k : κ) (v : α) :
    dGet (dAppend d k' v) k = dGet d k ++ (if k' = k then [v] else []) := by
  induction d with
  | nil => by_cases h : k' = k <;> simp [dAppend, dGet, h]
  | cons c rest ih =>
      obtain ⟨k0, vs⟩ := c
      by_cases h1 : k0 = k'
      · subst h1
        by_cases h2 : k0 = k
        · subst h2; simp [dAppend, dGet]
        · simp [dAppend, dGet, h2]
      · by_cases h2 : k0 = k
        · subst h2
          have h3 : ¬ k' = k0 := fun he => h1 he.symm
          simp [dAppend, dGet, h1, h3]
        · simp [dAppend, dGet, h1, h2, ih]

theorem keys_dAppend {κ α : Type} [DecidableEq κ] (d : List (κ × List α)) (k : κ) (v : α) :
    (dAppend d k v).map Prod.fst =
      if k ∈ d.map Prod.fst then d.map Prod.fst else d.map Prod.fst ++ [k] := by
  induction d with
  | nil => simp [dAppend]
  | cons c rest ih =>
      obtain ⟨k0, vs⟩ := c
      by_cases h : k0 = k
      · simp [dAppend, h]
      · simp only [dAppend, if_neg h, List.map_cons, ih, List.mem_cons]
        have h' : ¬ k = k0 := fun he => h he.symm
        by_cases h2 : k ∈ rest.map Prod.fst <;> simp [h2, h']

theorem dAppend_of_not_mem {κ α : Type} [DecidableEq κ] {d : List (κ × List α)} {k : κ}
    (h : k ∉ d.map Prod.fst) (v : α) : dAppend d k v = d ++ [(k, [v])] := by
  induction d with
  | nil => simp [dAppend]
  | cons c rest ih =>
      obtain ⟨k0, vs⟩ := c
      simp only [List.map_cons, List.mem_cons, not_or] at h
      have h' : ¬ k0 = k := fun he => h.1 he.symm
      simp [dAppend, h', ih h.2]

theorem dAppend_append_left {κ α : Type} [DecidableEq κ] {P : List (κ × List α)} {k : κ}
    (h : k ∉ P.map Prod.fst) (X : List (κ × List α)) (v : α) :
    dAppend (P ++ X) k v = P ++ dAppend X k v := by
  induction P with
  | nil => simp
  | cons c rest ih =>
      obtain ⟨k0, vs⟩ := c
      simp only [List.map_cons, List.mem_cons, not_or] at h
      have h' : ¬ k0 = k := fun he => h.1 he.symm
      simp [dAppend, h', ih h.2]

theorem sumLen_dAppend {κ α : Type} [DecidableEq κ] (d : List (κ × List α)) (k : κ) (v : α) :
    ((dAppend d k v).map (fun p => p.2.length)).sum = ((d.map (fun p => p.2.length)).sum) + 1 := by
  induction d with
  | nil => simp [dAppend]
  | cons c rest ih =>
      obtain ⟨k0, vs⟩ := c
      by_cases h : k0 = k <;> simp [dAppend, h, ih] <;> omega

theorem dGet_foldl_dAppend {κ α β : Type} [DecidableEq κ] (l : List β) (kf : β → κ) (vf : β → α)
    (d0 : List (κ × List α)) (k : κ) :
    dGet (l.foldl (fun d x => dAppend d (kf x) (vf x)) d0) k
      = dGet d0 k ++ (l.filter (fun x => decide (kf x = k))).map vf := by
  induction l generalizing d0 with
  | nil => simp
  | cons x xs ih =>
      simp only [List.foldl_cons]
      rw [ih, dGet_dAppend]
      by_cases h : kf x = k <;> simp [h]

/-- First-seen deduplication: the key order a Python dict acquires when
fed a stream of (possibly repeated) keys. -/
def seenKeys {κ : Type} [DecidableEq κ] (ks : List κ) : List κ :=
  ks.foldl (fun acc k => if k ∈ acc then acc else acc ++ [k]) []

theorem keys_foldl_dAppend {κ α β : Type} [DecidableEq κ] (l : List β) (kf : β → κ) (vf : β → α) :
    ((l.foldl (fun d x => dAppend d (kf x) (vf x)) []).map Prod.fst) = seenKeys (l.map kf) := by
  rw [seenKeys, List.foldl_map]
  suffices h : ∀ (d0 : List (κ × List α)),
      ((l.foldl (fun d x => dAppend d (kf x) (vf x)) d0).map Prod.fst)
        = l.foldl (fun acc x => if kf x ∈ acc then acc else acc ++ [kf x]) (d0.map Prod.fst) by
    simpa using h []
  intro d0
  induction l generalizing d0 with
  | nil => rfl
  | cons x xs ih => simp only [List.foldl_cons]; rw [ih, keys_dAppend]

theorem sumLen_foldl_dAppend {κ α β : Type} [DecidableEq κ] (l : List β) (kf : β → κ) (vf : β → α)
    (d0 : List (κ × List α)) :
    (((l.foldl (fun d x => dAppend d (kf x) (vf x)) d0)).map (fun p => p.2.length)).sum
      = ((d0.map (fun p => p.2.length)).sum) + l.length := by
  induction l generalizing d0 with
  | nil => simp
  | cons x xs ih =>
      simp only [List.foldl_cons]
      rw [ih, sumLen_dAppend]
      simp [List.length_cons]
      omega

theorem seenKeys_append {κ : Type} [DecidableEq κ] (ks : List κ) (k : κ) :
    seenKeys (ks ++ [k]) = if k ∈ seenKeys ks then seenKeys ks else seenKeys ks ++ [k] := by
  simp [seenKeys, List.foldl_append]

theorem mem_seenKeys {κ : Type} [DecidableEq κ] (ks : List κ) (a : κ) :
    a ∈ seenKeys ks ↔ a ∈ ks := by
  induction ks using List.reverseRecOn generalizing a with
  | nil => simp [seenKeys]
  | append_singleton ks k ih =>
      rw [seenKeys_append]
      by_cases h : k ∈ seenKeys ks
      · rw [if_pos h]
        have hk : k ∈ ks := (ih k).mp h
        rw [ih a]
        simp only [List.mem_append, List.mem_singleton]
        exact ⟨Or.inl, fun hc => hc.elim id (fun he => by rw [he]; exact hk)⟩
      · rw [if_neg h]
        simp [ih]

theorem nodup_seenKeys {κ : Type} [DecidableEq κ] (ks : List κ) : (seenKeys ks).Nodup := by
  induction ks using List.reverseRecOn with
  | nil => simp [seenKeys]
  | append_singleton ks k ih =>
      rw [seenKeys_append]
      by_cases h : k ∈ seenKeys ks
      · simpa [h] using ih
      · rw [if_neg h]
        exact ih.append (List.nodup_singleton k)
          (fun a ha hb => h ((List.mem_singleton.mp hb) ▸ ha))

theorem length_seenKeys {κ : Type} [DecidableEq κ] (ks : List κ) :
    (seenKeys ks).length = ks.toFinset.card := by
  have h1 : (seenKeys ks).toFinset = ks.toFinset := by
    ext a; simp [mem_seenKeys]
  rw [← h1, List.toFinset_card_of_nodup (nodup_seenKeys ks)]

theorem pairwise_seenKeys {κ : Type} [DecidableEq κ] (ks : List κ) :
    (seenKeys ks).Pairwise (fun a b => List.indexOf a ks < List.indexOf b ks) := by
  induction ks using List.reverseRecOn with
  | nil => simp [seenKeys]
  | append_singleton ks k ih =>
      rw [seenKeys_append]
      by_cases h : k ∈ seenKeys ks
      · rw [if_pos h]
        refine List.Pairwise.imp_of_mem ?_ ih
        intro a b ha hb hr
        rw [List.indexOf_append_of_mem ((mem_seenKeys ks a).mp ha),
          List.indexOf_append_of_mem ((mem_seenKeys ks b).mp hb)]
        exact hr
      · rw [if_neg h]
        rw [List.pairwise_append]
        refine ⟨List.Pairwise.imp_of_mem ?_ ih, List.pairwise_singleton _ _, ?_⟩
        · intro a b ha hb hr
          rw [List.indexOf_append_of_mem ((mem_seenKeys ks a).mp ha),
            List.indexOf_append_of_mem ((mem_seenKeys ks b).mp hb)]
          exact hr
        · intro a ha b hb
          rw [List.mem_singleton] at hb
          subst hb
          have hk : b ∉ ks := fun hc => h ((mem_seenKeys ks b).mpr hc)
          have ha' : a ∈ ks := (mem_seenKeys ks a).mp ha
          rw [List.indexOf_append_of_mem ha', List.indexOf_append_of_not_mem hk]
          calc List.indexOf a ks < ks.length := List.indexOf_lt_length.mpr ha'
            _ ≤ ks.length + List.indexOf b [b] := Nat.le_add_right _ _

/-! ### Lemmas about row emission -/

theorem pval_cons_self (nm : String) (v : Value) (ps : List (String × Value)) :
    pval ((nm, v) :: ps) nm = v := by
  simp [pval, List.find?]

theorem pval_cons_ne {nm' nm : String} (v : Value) (ps : List (String × Value)) (h : nm' ≠ nm) :
    pval ((nm', v) :: ps) nm = pval ps nm := by
  simp [pval, List.find?, h]

theorem pval_append_right {ps1 : List (String × Value)} (ps2 : List (String × Value))
    {nm : String} (h : nm ∉ ps1.map Prod.fst) :
    pval (ps1 ++ ps2) nm = pval ps2 nm := by
  induction ps1 with
  | nil => simp
  | cons p ps ih =>
      obtain ⟨nm0, v0⟩ := p
      simp only [List.map_cons, List.mem_cons, not_or] at h
      rw [List.cons_append, pval_cons_ne v0 _ (fun he => h.1 he.symm), ih h.2]

theorem emitPairs_cons (acc : List (String × List Value)) (p : String × Value)
    (ps : List (String × Value)) :
    emitPairs acc (p :: ps) = emitPairs (dAppend acc p.1 p.2) ps := rfl

theorem emitPairs_append (acc : List (String × List Value)) (ps1 ps2 : List (String × Value)) :
    emitPairs acc (ps1 ++ ps2) = emitPairs (emitPairs acc ps1) ps2 :=
  List.foldl_append _ _ _ _

theorem emitPairs_fresh {ps : List (String × Value)} :
    ∀ {acc : List (String × List Value)}, (∀ p ∈ ps, p.1 ∉ acc.map Prod.fst) →
    (ps.map Prod.fst).Nodup →
    emitPairs acc ps = acc ++ ps.map (fun p => (p.1, [p.2])) := by
  induction ps with
  | nil => intro acc _ _; simp [emitPairs]
  | cons p ps ih =>
      intro acc h hnd
      obtain ⟨nm0, v0⟩ := p
      rw [emitPairs_cons, dAppend_of_not_mem (h (nm0, v0) (by simp)) v0]
      rw [ih ?_ ?_]
      · simp
      · intro q hq
        simp only [List.map_append, List.map_cons, List.mem_append]
        rintro (hc | hc)
        · exact h q (by simp [hq]) hc
        · simp only [List.map_nil, List.map_cons, List.mem_cons] at hc
          rcases hc with hc | hc
          · simp only [List.map_cons, List.nodup_cons] at hnd
            exact hnd.1 (hc ▸ List.mem_map_of_mem Prod.fst hq)
          · simp at hc
      · simpa using hnd.of_cons

theorem map_singleton_pval {ps : List (String × Value)} (hnd : (ps.map Prod.fst).Nodup) :
    ps.map (fun p => (p.1, [p.2])) = (ps.map Prod.fst).map (fun nm => (nm, [pval ps nm])) := by
  induction ps with
  | nil => rfl
  | cons p ps ih =>
      obtain ⟨nm0, v0⟩ := p
      simp only [List.map_cons]
      congr 1
      · rw [pval_cons_self]
      · rw [ih (by simpa using hnd.of_cons)]
        apply List.map_congr_left
        intro nm hm
        have hne : nm0 ≠ nm := by
          simp only [List.map_cons, List.nodup_cons] at hnd
          exact fun he => hnd.1 (by rw [he]; exact hm)
        rw [pval_cons_ne v0 ps hne]

theorem emitPairs_update : ∀ (ps : List (String × Value)) (P : List (String × List Value))
    (g : String → List Value),
    (ps.map Prod.fst).Nodup →
    (∀ p ∈ ps, p.1 ∉ P.map Prod.fst) →
    emitPairs (P ++ (ps.map Prod.fst).map (fun nm => (nm, g nm))) ps
      = P ++ (ps.map Prod.fst).map (fun nm => (nm, g nm ++ [pval ps nm])) := by
  intro ps
  induction ps with
  | nil => intro P g _ _; simp [emitPairs]
  | cons p ps ih =>
      intro P g hnd hdisj
      obtain ⟨nm0, v0⟩ := p
      simp only [List.map_cons]
      rw [emitPairs_cons]
      have h1 : nm0 ∉ P.map Prod.fst := hdisj (nm0, v0) (by simp)
      rw [show P ++ (nm0, g nm0) :: List.map (fun nm => (nm, g nm)) (ps.map Prod.fst)
            = P ++ ((nm0, g nm0) :: List.map (fun nm => (nm, g nm)) (ps.map Prod.fst)) from rfl]
      rw [dAppend_append_left h1]
      have h2 : dAppend ((nm0, g nm0) :: List.map (fun nm => (nm, g nm)) (ps.map Prod.fst)) nm0 v0
          = (nm0, g nm0 ++ [v0]) :: List.map (fun nm => (nm, g nm)) (ps.map Prod.fst) := by
        simp [dAppend]
      rw [h2]
      have h3 : P ++ (nm0, g nm0 ++ [v0]) :: List.map (fun nm => (nm, g nm)) (ps.map Prod.fst)
          = (P ++ [(nm0, g nm0 ++ [v0])]) ++ List.map (fun nm => (nm, g nm)) (ps.map Prod.fst) := by
        simp
      rw [h3]
      have hnd' : (ps.map Prod.fst).Nodup := by simpa using hnd.of_cons
      have hnm0 : nm0 ∉ ps.map Prod.fst := by
        simp only [List.map_cons, List.nodup_cons] at hnd
        exact hnd.1
      rw [ih (P ++ [(nm0, g nm0 ++ [v0])]) g hnd' ?_]
      · rw [pval_cons_self]
        have h4 : List.map (fun nm => (nm, g nm ++ [pval ps nm])) (ps.map Prod.fst)
            = List.map (fun nm => (nm, g nm ++ [pval ((nm0, v0) :: ps) nm])) (ps.map Prod.fst) := by
          apply List.map_congr_left
          intro nm hm
          rw [pval_cons_ne v0 ps (fun he => hnm0 (by rw [he]; exact hm))]
        rw [h4]
        simp
      · intro q hq
        simp only [List.map_append, List.mem_append]
        rintro (hc | hc)
        · exact hdisj q (by simp [hq]) hc
        · simp only [List.map_cons, List.map_nil, List.mem_cons, List.not_mem_nil, or_false] at hc
          exact hnm0 (by rw [← hc]; exact List.mem_map_of_mem Prod.fst hq)

theorem foldl_emitPairs_acc (names : List String) :
    ∀ (pss : List (List (String × Value))) (g : String → List Value),
    (∀ ps ∈ pss, ps.map Prod.fst = names) → names.Nodup →
    pss.foldl emitPairs (names.map (fun nm => (nm, g nm)))
      = names.map (fun nm => (nm, g nm ++ pss.map (fun ps => pval ps nm))) := by
  intro pss
  induction pss with
  | nil => intro g _ _; simp
  | cons ps pss ih =>
      intro g hw hnd
      simp only [List.foldl_cons]
      have h0 : ps.map Prod.fst = names := hw ps (by simp)
      have hupd := emitPairs_update ps [] g (h0 ▸ hnd) (by simp)
      rw [h0] at hupd
      simp only [List.nil_append] at hupd
      rw [hupd, ih (fun nm => g nm ++ [pval ps nm]) (fun q hq => hw q (by simp [hq])) hnd]
      simp

theorem foldl_emitPairs (names : List String) (pss : List (List (String × Value)))
    (hw : ∀ ps ∈ pss, ps.map Prod.fst = names) (hnd : names.Nodup) :
    pss.foldl emitPairs [] = colsOfRows names pss := by
  cases pss with
  | nil => rfl
  | cons ps pss =>
      have h0 : ps.map Prod.fst = names := hw ps (by simp)
      simp only [List.foldl_cons]
      have hfresh : emitPairs [] ps = ps.map (fun p => (p.1, [p.2])) := by
        simpa using @emitPairs_fresh ps [] (by simp) (h0 ▸ hnd)
      rw [hfresh, map_singleton_pval (h0 ▸ hnd), h0]
      rw [foldl_emitPairs_acc names pss (fun nm => [pval ps nm])
        (fun q hq => hw q (by simp [hq])) hnd]
      simp [colsOfRows]

theorem foldl_guard {α β : Type} (l : List α) (p : α → Bool) (f : β → α → β) (init : β) :
    l.foldl (fun acc x => if p x then f acc x else acc) init = (l.filter p).foldl f init := by
  induction l generalizing init with
  | nil => rfl
  | cons x xs ih => by_cases h : p x <;> simp [h, ih, List.filter_cons]

theorem foldl_flatten {α β γ : Type} (l : List α) (g : α → List β) (f : γ → β → γ) (init : γ) :
    (l.flatMap g).foldl f init = l.foldl (fun acc x => (g x).foldl f acc) init := by
  induction l generalizing init with
  | nil => rfl
  | cons x xs ih => simp only [List.flatMap_cons, List.foldl_append, List.foldl_cons, ih]

theorem dedup_const_le_one {α : Type} [DecidableEq α] (n : Nat) (x : α) :
    ¬ 1 < (List.replicate n x).dedup.length := by
  induction n with
  | zero => simp
  | succ n ih =>
      rw [List.replicate_succ]
      by_cases h : n = 0
      · subst h; simp
      · rw [List.dedup_cons_of_mem (by simp [List.mem_replicate, h])]
        simpa [List.replicate_succ] using ih

theorem mkDF_colsOfRows (names : List String) (pss : List (List (String × Value))) :
    mkDF (colsOfRows names pss) = .ok ⟨colsOfRows names pss⟩ := by
  by_cases h : pss.isEmpty
  · simp [colsOfRows, h, mkDF]
  · cases names with
    | nil => simp [colsOfRows, h, mkDF]
    | cons nm names =>
        have hlen : (colsOfRows (nm :: names) pss).map (fun c => c.2.length)
            = List.replicate (nm :: names).length pss.length := by
          simp only [colsOfRows, h, Bool.false_eq_true, if_false, List.map_map]
          have : ((fun c => c.2.length) ∘ fun nm => (nm, List.map (fun ps => pval ps nm) pss))
              = fun _ => pss.length := by
            funext nm; simp
          rw [this, List.map_const']
        have hne : (colsOfRows (nm :: names) pss).isEmpty = false := by
          simp [colsOfRows, h]
        have h2 : ¬ 1 < ((colsOfRows (nm :: names) pss).map (fun c => c.2.length)).dedup.length := by
          rw [hlen]; exact dedup_const_le_one _ _
        simp only [mkDF, hne, Bool.false_eq_true, if_false, if_neg h2]

theorem len_colsOfRows (names : List String) (pss : List (List (String × Value)))
    (h : names ≠ []) : (DataFrame.mk (colsOfRows names pss)).len = pss.length := by
  cases pss with
  | nil => simp [colsOfRows, DataFrame.len]
  | cons ps pss =>
      cases names with
      | nil => exact absurd rfl h
      | cons nm names => simp [colsOfRows, DataFrame.len]

theorem columns_colsOfRows (names : List String) (pss : List (List (String × Value)))
    (h : pss ≠ []) : (DataFrame.mk (colsOfRows names pss)).columns = names := by
  cases pss with
  | nil => exact absurd rfl h
  | cons ps pss =>
      simp only [colsOfRows, List.isEmpty_cons, Bool.false_eq_true, if_false,
        DataFrame.columns, List.map_map]
      rw [show (Prod.fst ∘ fun nm => (nm, List.map (fun ps => pval ps nm) (ps :: pss)))
            = id from funext (fun nm => rfl), List.map_id]

/-! ### Filter: characterization -/

/-- The indices of the rows a filter keeps, in their original order. -/
def passingRows (df : DataFrame) (condition : List (String × Value) → Bool) : List Nat :=
  (List.range df.len).filter (fun i => condition (rowOf df i))

theorem fst_rowOf (df : DataFrame) (i : Nat) : (rowOf df i).map Prod.fst = df.columns := by
  simp [rowOf, DataFrame.columns]

theorem filter_eq_colsOfRows (df : DataFrame) (condition : List (String × Value) → Bool)
    (hnd : df.columns.Nodup) :
    df.filter condition
      = .ok ⟨colsOfRows df.columns ((passingRows df condition).map (rowOf df))⟩ := by
  rw [DataFrame.filter]
  have h1 : (List.range df.len).foldl
      (fun acc i => if condition (rowOf df i) then emitPairs acc (rowOf df i) else acc) []
      = ((passingRows df condition).map (rowOf df)).foldl emitPairs [] := by
    rw [foldl_guard, List.foldl_map]
    rfl
  rw [h1, foldl_emitPairs df.columns _ ?_ hnd, mkDF_colsOfRows]
  intro ps hps
  simp only [List.mem_map] at hps
  obtain ⟨i, _, rfl⟩ := hps
  exact fst_rowOf df i

/-- C1 (amended): `filter(T, P)` returns a table holding exactly the rows
of `T` satisfying `P`, in their original relative order, so its row count
is the number of satisfying rows; the column set and column order equal
those of `T` whenever at least one row satisfies `P`, but when no row
does, the result is the empty table with zero columns. -/
theorem filter_rowcount_columns_order (df : DataFrame)
    (condition : List (String × Value) → Bool) (hnd : df.columns.Nodup) :
    ∃ out : DataFrame, df.filter condition = .ok out ∧
      out.cols = colsOfRows df.columns ((passingRows df condition).map (rowOf df)) ∧
      out.len = (passingRows df condition).length ∧
      (passingRows df condition ≠ [] → out.columns = df.columns) ∧
      (passingRows df condition = [] → out.cols = []) := by
  refine ⟨_, filter_eq_colsOfRows df condition hnd, rfl, ?_, ?_, ?_⟩
  · cases hdf : df.cols with
    | nil =>
        simp [passingRows, DataFrame.len, hdf, colsOfRows]
    | cons c rest =>
        have hc : df.columns ≠ [] := by simp [DataFrame.columns, hdf]
        rw [len_colsOfRows _ _ hc, List.length_map]
  · intro hne
    refine columns_colsOfRows _ _ ?_
    simpa using hne
  · intro he
    simp [he, colsOfRows]

/-- C1 counterexample: filtering every row away also drops the column
set — the result has zero columns instead of the original column `a`. -/
theorem filter_c1_counterexample :
    DataFrame.filter ⟨[("a", [Value.int 1])]⟩ (fun _ => false) = .ok ⟨[]⟩ ∧
    (DataFrame.mk [("a", [Value.int 1])]).columns = ["a"] ∧
    (DataFrame.mk [] : DataFrame).columns ≠ ["a"] := by
  refine ⟨by rfl, by rfl, by simp [DataFrame.columns]⟩

/-- C1 witness: the amended filter theorem applied to a concrete table
and predicate. -/
theorem filter_c1_witness :
    (DataFrame.mk [("a", [Value.int 1, Value.int 2])]).columns.Nodup ∧
    (∃ out : DataFrame,
      DataFrame.filter ⟨[("a", [Value.int 1, Value.int 2])]⟩
          (fun row => pval row "a" == Value.int 2) = .ok out ∧
      out.cols = colsOfRows (DataFrame.mk [("a", [Value.int 1, Value.int 2])]).columns
        ((passingRows ⟨[("a", [Value.int 1, Value.int 2])]⟩
            (fun row => pval row "a" == Value.int 2)).map
          (rowOf ⟨[("a", [Value.int 1, Value.int 2])]⟩)) ∧
      out.len = (passingRows ⟨[("a", [Value.int 1, Value.int 2])]⟩
          (fun row => pval row "a" == Value.int 2)).length ∧
      (passingRows ⟨[("a", [Value.int 1, Value.int 2])]⟩
          (fun row => pval row "a" == Value.int 2) ≠ [] →
        out.columns = (DataFrame.mk [("a", [Value.int 1, Value.int 2])]).columns) ∧
      (passingRows ⟨[("a", [Value.int 1, Value.int 2])]⟩
          (fun row => pval row "a" == Value.int 2) = [] → out.cols = [])) :=
  ⟨by decide, filter_rowcount_columns_order _ _ (by decide)⟩

/-- C10 (confirmed): joining with a `how` that is none of inner, left,
right, outer raises no error: no join branch runs, `result_data` stays
empty, and the result is the empty table with zero columns and rows. -/
theorem join_unknown_how (L R : DataFrame) (onCols : List String) (how : String)
    (suffixes : String × String)
    (h1 : ∀ col ∈ onCols, col ∈ L.columns) (h2 : ∀ col ∈ onCols, col ∈ R.columns)
    (hh1 : how ≠ "inner") (hh2 : how ≠ "left") (hh3 : how ≠ "right") (hh4 : how ≠ "outer") :
    L.join R onCols how suffixes = .ok ⟨[]⟩ ∧ (DataFrame.mk [] : DataFrame).len = 0 ∧
      (DataFrame.mk [] : DataFrame).columns = [] := by
  refine ⟨?_, rfl, rfl⟩
  rw [DataFrame.join]
  rw [if_neg (not_not_intro h1), if_neg (not_not_intro h2)]
  simp [hh1, hh2, hh3, hh4, mkDF]

/-- C10 witness: a concrete join with `how = "cross"`. -/
theorem join_unknown_how_witness :
    (∀ col ∈ ["id"], col ∈ (DataFrame.mk [("id", [Value.int 1])]).columns) ∧
    (∀ col ∈ ["id"], col ∈ (DataFrame.mk [("id", [Value.int 2])]).columns) ∧
    ("cross" ≠ "inner" ∧ "cross" ≠ "left" ∧ "cross" ≠ "right" ∧ "cross" ≠ "outer") ∧
    (DataFrame.join ⟨[("id", [Value.int 1])]⟩ ⟨[("id", [Value.int 2])]⟩ ["id"] "cross"
        ("_x", "_y") = .ok ⟨[]⟩ ∧ (DataFrame.mk [] : DataFrame).len = 0 ∧
      (DataFrame.mk [] : DataFrame).columns = []) :=
  ⟨by decide, by decide, ⟨by decide, by decide, by decide, by decide⟩,
    join_unknown_how _ _ _ _ _ (by decide) (by decide) (by decide) (by decide) (by decide)
      (by decide)⟩


/-! ### Aggregation of non-numeric columns -/

theorem pyAdd_right_nonnum {a v : Value} (ha : a.isNumeric = true) (hv : v.isNumeric = false) :
    pyAdd a v = .error .typeError := by
  cases a <;> cases v <;> simp_all [pyAdd, Value.isNumeric]

theorem pyAdd_both_num {a v : Value} (ha : a.isNumeric = true) (hv : v.isNumeric = true) :
    pyAdd a v = .error .typeError ∨ ∃ w, pyAdd a v = .ok w ∧ w.isNumeric = true := by
  cases a with
  | int a =>
      cases v with
      | int b => exact Or.inr ⟨_, rfl, rfl⟩
      | rat b => exact Or.inr ⟨_, rfl, rfl⟩
      | sqrtOf b => exact Or.inl rfl
      | str b => simp [Value.isNumeric] at hv
      | none => simp [Value.isNumeric] at hv
  | rat a =>
      cases v with
      | int b => exact Or.inr ⟨_, rfl, rfl⟩
      | rat b => exact Or.inr ⟨_, rfl, rfl⟩
      | sqrtOf b => exact Or.inl rfl
      | str b => simp [Value.isNumeric] at hv
      | none => simp [Value.isNumeric] at hv
  | sqrtOf a => exact Or.inl (by cases v <;> rfl)
  | str a => simp [Value.isNumeric] at ha
  | none => simp [Value.isNumeric] at ha

theorem foldlM_pyAdd_err : ∀ (values : List Value) (a : Value), a.isNumeric = true →
    (∃ v ∈ values, v.isNumeric = false) →
    values.foldlM pyAdd a = .error .typeError := by
  intro values
  induction values with
  | nil => intro a _ h; simp at h
  | cons v vs ih =>
      intro a ha h
      rw [List.foldlM_cons]
      rcases h with ⟨w, hw, hwn⟩
      rcases List.mem_cons.mp hw with rfl | hwvs
      · rw [pyAdd_right_nonnum ha hwn]; rfl
      · by_cases hv : v.isNumeric = true
        · rcases pyAdd_both_num ha hv with he | ⟨w', hok, hn⟩
          · rw [he]; rfl
          · rw [hok]
            simpa using ih w' hn ⟨w, hwvs, hwn⟩
        · rw [pyAdd_right_nonnum ha (Bool.not_eq_true _ ▸ hv)]; rfl

theorem pySum_err (values : List Value) (h : ∃ v ∈ values, v.isNumeric = false) :
    pySum values = .error .typeError :=
  foldlM_pyAdd_err values (Value.int 0) rfl h

theorem pyMean_err (values : List Value) (h : ∃ v ∈ values, v.isNumeric = false) :
    pyMean values = .error .typeError := by
  have hlen : 0 < values.length := by
    rcases h with ⟨v, hv, _⟩
    exact List.length_pos.mpr (List.ne_nil_of_mem hv)
  rw [pyMean, if_pos hlen, show pySum values = .error .typeError from pySum_err values h]
  rfl

theorem ratList_none : ∀ (values : List Value),
    (∃ v ∈ values, v.isNumeric = false) → ratList values = Option.none := by
  intro values
  induction values with
  | nil => intro h; simp at h
  | cons v vs ih =>
      intro h
      rcases h with ⟨w, hw, hwn⟩
      rcases List.mem_cons.mp hw with rfl | hwvs
      · rw [ratList, show valueToRat w = Option.none from by
          cases w <;> simp_all [valueToRat, Value.isNumeric]]
      · rw [ratList, ih ⟨w, hwvs, hwn⟩]
        cases valueToRat v <;> rfl

theorem npStd_err (values : List Value) (h : ∃ v ∈ values, v.isNumeric = false) :
    npStd values = .error .typeError := by
  rw [npStd, ratList_none values h]

theorem npVar_err (values : List Value) (h : ∃ v ∈ values, v.isNumeric = false) :
    npVar values = .error .typeError := by
  rw [npVar, ratList_none values h]

theorem agg_single_err (df : DataFrame) (col func : String) (hmem : col ∈ df.columns)
    (he : apply_aggregation (getColD df col) func = .error .typeError) :
    df.agg [(col, [func])] = .error .typeError := by
  rw [DataFrame.agg]
  simp only [List.foldlM_cons, List.foldlM_nil, hmem, if_pos, he]
  rfl

theorem pyAdd_classify (a v : Value) :
    pyAdd a v = .error .typeError ∨ ∃ w, pyAdd a v = .ok w := by
  cases a <;> cases v <;> simp [pyAdd]

theorem foldlM_pyAdd_classify : ∀ (vs : List Value) (a : Value),
    vs.foldlM pyAdd a = .error .typeError ∨ ∃ w, vs.foldlM pyAdd a = .ok w := by
  intro vs
  induction vs with
  | nil => intro a; exact Or.inr ⟨a, rfl⟩
  | cons v vs ih =>
      intro a
      rw [List.foldlM_cons]
      rcases pyAdd_classify a v with he | ⟨w, hw⟩
      · rw [he]; exact Or.inl rfl
      · rw [hw]; simpa using ih w

theorem pyDiv_classify (v : Value) (n : Nat) :
    pyDiv v n = .error .typeError ∨ ∃ w, pyDiv v n = .ok w := by
  cases v <;> simp [pyDiv]

theorem pyMean_classify (vs : List Value) :
    pyMean vs = .error .typeError ∨ ∃ w, pyMean vs = .ok w := by
  by_cases hl : 0 < vs.length
  · rcases foldlM_pyAdd_classify vs (Value.int 0) with he | ⟨w, hw⟩
    · left
      rw [pyMean, if_pos hl, show pySum vs = Except.error PyError.typeError from he]
      rfl
    · have hred : pyMean vs = pyDiv w vs.length := by
        rw [pyMean, if_pos hl, show pySum vs = Except.ok w from hw]
        rfl
      rw [hred]
      exact pyDiv_classify w vs.length
  · exact Or.inr ⟨Value.int 0, by rw [pyMean, if_neg hl]⟩

theorem npStd_classify (vs : List Value) :
    npStd vs = .error .typeError ∨ ∃ w, npStd vs = .ok w := by
  cases hrl : ratList vs with
  | none => left; rw [npStd, hrl]
  | some qs => right; exact ⟨_, by rw [npStd, hrl]⟩

theorem npVar_classify (vs : List Value) :
    npVar vs = .error .typeError ∨ ∃ w, npVar vs = .ok w := by
  cases hrl : ratList vs with
  | none => left; rw [npVar, hrl]
  | some qs => right; exact ⟨_, by rw [npVar, hrl]⟩

/-- For the four numeric reductions the claim covers, `_apply_aggregation`
either succeeds or raises exactly a `TypeError` (never any other error). -/
theorem apply_agg_classify (vs : List Value) (func : String)
    (hf : func = "sum" ∨ func = "mean" ∨ func = "std" ∨ func = "var") :
    apply_aggregation vs func = .error .typeError
      ∨ ∃ w, apply_aggregation vs func = .ok w := by
  rcases hf with rfl | rfl | rfl | rfl
  · exact foldlM_pyAdd_classify vs (Value.int 0)
  · exact pyMean_classify vs
  · rw [show apply_aggregation vs "std"
        = if 0 < vs.length then npStd vs else .ok (.int (0 : Int)) from rfl]
    by_cases hl : 0 < vs.length
    · rw [if_pos hl]; exact npStd_classify vs
    · rw [if_neg hl]; exact Or.inr ⟨_, rfl⟩
  · rw [show apply_aggregation vs "var"
        = if 0 < vs.length then npVar vs else .ok (.int (0 : Int)) from rfl]
    by_cases hl : 0 < vs.length
    · rw [if_pos hl]; exact npVar_classify vs
    · rw [if_neg hl]; exact Or.inr ⟨_, rfl⟩

/-- A value found in a dict lookup comes from an entry of the dict. -/
theorem mem_of_mem_dGet {κ α : Type} [DecidableEq κ] :
    ∀ (d : List (κ × List α)) (k : κ) (a : α),
      a ∈ dGet d k → ∃ vs, (k, vs) ∈ d ∧ a ∈ vs := by
  intro d
  induction d with
  | nil => intro k a h; simp [dGet] at h
  | cons c rest ih =>
      intro k a h
      obtain ⟨k', vs'⟩ := c
      rw [dGet] at h
      by_cases hk : k' = k
      · subst hk
        rw [if_pos rfl] at h
        exact ⟨vs', List.mem_cons_self _ _, h⟩
      · rw [if_neg hk] at h
        obtain ⟨vs, hmem, ha⟩ := ih k a h
        exact ⟨vs, List.mem_cons_of_mem _ hmem, ha⟩

/-- A monadic fold fails with error `e` when every step either succeeds or
fails with `e`, and some element's step fails with `e` from any state. -/
theorem foldlM_err_mem {α β : Type} (f : β → α → Except PyError β) (e : PyError) :
    ∀ (l : List α),
      (∀ b a, a ∈ l → f b a = .error e ∨ ∃ b', f b a = .ok b') →
      (∃ x ∈ l, ∀ b, f b x = .error e) →
      ∀ b, l.foldlM f b = .error e := by
  intro l
  induction l with
  | nil => intro _ hbad b; simp at hbad
  | cons y ys ih =>
      intro hstep hbad b
      rw [List.foldlM_cons]
      rcases hstep b y (List.mem_cons_self _ _) with he | ⟨b', hok⟩
      · rw [he]; rfl
      · rw [hok]
        have hbad2 : ∃ x ∈ ys, ∀ b, f b x = .error e := by
          rcases hbad with ⟨x, hx, hfx⟩
          rcases List.mem_cons.mp hx with rfl | hxys
          · rw [hfx b] at hok
            exact absurd hok (by simp)
          · exact ⟨x, hxys, hfx⟩
        simpa using ih (fun b a ha => hstep b a (List.mem_cons_of_mem _ ha)) hbad2 b'

/-- The bad value's row index lands in some group of `_build_groups`. -/
theorem exists_group_of_lt (df : DataFrame) (group_cols : List String) (n : Nat)
    (hn : n < df.len) :
    ∃ idxs, (keyOf df group_cols n, idxs) ∈ build_groups df group_cols ∧ n ∈ idxs := by
  have hget : dGet (build_groups df group_cols) (keyOf df group_cols n)
      = ((List.range df.len).filter
          (fun x => decide (keyOf df group_cols x = keyOf df group_cols n))).map
          (fun j => j) := by
    rw [build_groups]
    exact dGet_foldl_dAppend (List.range df.len) (keyOf df group_cols) (fun j => j) []
      (keyOf df group_cols n)
  have hmem : n ∈ dGet (build_groups df group_cols) (keyOf df group_cols n) := by
    rw [hget]
    refine List.mem_map.mpr ⟨n, ?_, rfl⟩
    rw [List.mem_filter]
    exact ⟨List.mem_range.mpr hn, by simp⟩
  exact mem_of_mem_dGet _ _ _ hmem

/-- Grouped aggregation of a column containing a non-numeric value (within
the table's rows) with `sum`, `mean`, `std` or `var`: the bad value lands in
some group, that group's `_apply_aggregation` call raises `TypeError`, and
the failure propagates out of the whole grouped `agg` call. -/
theorem grouped_agg_err (df : DataFrame) (group_cols : List String) (col func : String)
    (hmem : col ∈ df.columns)
    (hf : func = "sum" ∨ func = "mean" ∨ func = "std" ∨ func = "var")
    (hbadv : ∃ v ∈ getColD df col, v.isNumeric = false)
    (hlen : (getColD df col).length = df.len) :
    grouped_agg df group_cols [(col, [func])] = .error .typeError := by
  rw [grouped_agg]
  have hstep : ∀ (result_data : List (String × List Value)) (g : List Value × List Nat),
      g ∈ build_groups df group_cols →
      ((do
        let (group_key, indices) := g
        let result_data := group_cols.enum.foldl
          (fun acc p => dAppend acc p.2 (group_key.getD p.1 Value.none)) result_data
        ([(col, [func])] : List (String × List String)).foldlM (fun acc p => do
          let (c, funcs) := p
          if c ∈ df.columns then
            let group_values := indices.map (fun idx => (getColD df c).getD idx Value.none)
            funcs.foldlM (fun acc f2 => do
              let agg_value ← apply_aggregation group_values f2
              let result_key := if 1 < funcs.length then c ++ "_" ++ f2 else c
              pure (dAppend acc result_key agg_value)) acc
          else .error PyError.keyError) result_data) :
        Except PyError (List (String × List Value)))
      = .error PyError.typeError
      ∨ ∃ b', ((do
        let (group_key, indices) := g
        let result_data := group_cols.enum.foldl
          (fun acc p => dAppend acc p.2 (group_key.getD p.1 Value.none)) result_data
        ([(col, [func])] : List (String × List String)).foldlM (fun acc p => do
          let (c, funcs) := p
          if c ∈ df.columns then
            let group_values := indices.map (fun idx => (getColD df c).getD idx Value.none)
            funcs.foldlM (fun acc f2 => do
              let agg_value ← apply_aggregation group_values f2
              let result_key := if 1 < funcs.length then c ++ "_" ++ f2 else c
              pure (dAppend acc result_key agg_value)) acc
          else .error PyError.keyError) result_data) :
        Except PyError (List (String × List Value)))
      = .ok b' := by
    intro b g _
    obtain ⟨gk, idxs⟩ := g
    simp only [List.foldlM_cons, List.foldlM_nil, if_pos hmem]
    rcases apply_agg_classify
        (List.map (fun idx => (getColD df col).getD idx Value.none) idxs) func hf with
      he | ⟨w, hw⟩
    · left
      rw [he]
      rfl
    · right
      exact ⟨_, by rw [hw]; rfl⟩
  have hbad : ∃ x ∈ build_groups df group_cols,
      ∀ (result_data : List (String × List Value)),
      ((do
        let (group_key, indices) := x
        let result_data := group_cols.enum.foldl
          (fun acc p => dAppend acc p.2 (group_key.getD p.1 Value.none)) result_data
        ([(col, [func])] : List (String × List String)).foldlM (fun acc p => do
          let (c, funcs) := p
          if c ∈ df.columns then
            let group_values := indices.map (fun idx => (getColD df c).getD idx Value.none)
            funcs.foldlM (fun acc f2 => do
              let agg_value ← apply_aggregation group_values f2
              let result_key := if 1 < funcs.length then c ++ "_" ++ f2 else c
              pure (dAppend acc result_key agg_value)) acc
          else .error PyError.keyError) result_data) :
        Except PyError (List (String × List Value)))
      = .error PyError.typeError := by
    obtain ⟨v, hv, hvnn⟩ := hbadv
    obtain ⟨n, hn, hvn⟩ := List.getElem_of_mem hv
    obtain ⟨idxs, hgmem, hnidxs⟩ := exists_group_of_lt df group_cols n (hlen ▸ hn)
    refine ⟨(keyOf df group_cols n, idxs), hgmem, ?_⟩
    intro b
    simp only [List.foldlM_cons, List.foldlM_nil, if_pos hmem]
    have hbad2 : ∃ u ∈ List.map (fun idx => (getColD df col).getD idx Value.none) idxs,
        u.isNumeric = false := by
      refine ⟨(getColD df col).getD n Value.none, List.mem_map_of_mem _ hnidxs, ?_⟩
      rw [List.getD_eq_getElem (getColD df col) Value.none hn, hvn]
      exact hvnn
    have hl2 : 0 < (List.map (fun idx => (getColD df col).getD idx Value.none) idxs).length := by
      rcases hbad2 with ⟨u, hu, _⟩
      exact List.length_pos.mpr (List.ne_nil_of_mem hu)
    have herr : apply_aggregation
        (List.map (fun idx => (getColD df col).getD idx Value.none) idxs) func
        = .error .typeError := by
      rcases hf with rfl | rfl | rfl | rfl
      · exact pySum_err _ hbad2
      · exact pyMean_err _ hbad2
      · rw [show apply_aggregation
              (List.map (fun idx => (getColD df col).getD idx Value.none) idxs) "std"
            = if 0 < (List.map (fun idx => (getColD df col).getD idx Value.none) idxs).length
              then npStd (List.map (fun idx => (getColD df col).getD idx Value.none) idxs)
              else .ok (.int (0 : Int)) from rfl]
        rw [if_pos hl2]
        exact npStd_err _ hbad2
      · rw [show apply_aggregation
              (List.map (fun idx => (getColD df col).getD idx Value.none) idxs) "var"
            = if 0 < (List.map (fun idx => (getColD df col).getD idx Value.none) idxs).length
              then npVar (List.map (fun idx => (getColD df col).getD idx Value.none) idxs)
              else .ok (.int (0 : Int)) from rfl]
        rw [if_pos hl2]
        exact npVar_err _ hbad2
    rw [herr]
    rfl
  rw [foldlM_err_mem _ PyError.typeError (build_groups df group_cols) hstep hbad []]
  rfl

/-- C5 (amended): aggregating a column containing at least one
non-numeric value with `sum`, `mean`, `std` or `var` fails with a
`TypeError` on every route — at the shared `_apply_aggregation` helper,
through whole-table `agg`, and through grouped `agg` for any choice of
group columns (the bad value lands in some group and the failure
propagates).  (`min` and `max` are excluded from the claim: on an
all-string column Python's comparisons succeed, see the counterexample.) -/
theorem agg_nonnumeric_errors (df : DataFrame) (col : String) (group_cols : List String)
    (hmem : col ∈ df.columns)
    (h : ∃ v ∈ getColD df col, v.isNumeric = false)
    (hcl : (getColD df col).length = df.len) :
    apply_aggregation (getColD df col) "sum" = .error .typeError ∧
    apply_aggregation (getColD df col) "mean" = .error .typeError ∧
    apply_aggregation (getColD df col) "std" = .error .typeError ∧
    apply_aggregation (getColD df col) "var" = .error .typeError ∧
    df.agg [(col, ["sum"])] = .error .typeError ∧
    df.agg [(col, ["mean"])] = .error .typeError ∧
    df.agg [(col, ["std"])] = .error .typeError ∧
    df.agg [(col, ["var"])] = .error .typeError ∧
    grouped_agg df group_cols [(col, ["sum"])] = .error .typeError ∧
    grouped_agg df group_cols [(col, ["mean"])] = .error .typeError ∧
    grouped_agg df group_cols [(col, ["std"])] = .error .typeError ∧
    grouped_agg df group_cols [(col, ["var"])] = .error .typeError := by
  have hlen : 0 < (getColD df col).length := by
    rcases h with ⟨v, hv, _⟩
    exact List.length_pos.mpr (List.ne_nil_of_mem hv)
  have h1 : apply_aggregation (getColD df col) "sum" = .error .typeError := pySum_err _ h
  have h2 : apply_aggregation (getColD df col) "mean" = .error .typeError := pyMean_err _ h
  have h3 : apply_aggregation (getColD df col) "std" = .error .typeError := by
    rw [show apply_aggregation (getColD df col) "std"
        = if 0 < (getColD df col).length then npStd (getColD df col)
          else .ok (.int (0 : Int)) from rfl]
    rw [if_pos hlen]
    exact npStd_err _ h
  have h4 : apply_aggregation (getColD df col) "var" = .error .typeError := by
    rw [show apply_aggregation (getColD df col) "var"
        = if 0 < (getColD df col).length then npVar (getColD df col)
          else .ok (.int (0 : Int)) from rfl]
    rw [if_pos hlen]
    exact npVar_err _ h
  exact ⟨h1, h2, h3, h4, agg_single_err df col "sum" hmem h1,
    agg_single_err df col "mean" hmem h2, agg_single_err df col "std" hmem h3,
    agg_single_err df col "var" hmem h4,
    grouped_agg_err df group_cols col "sum" hmem (Or.inl rfl) h hcl,
    grouped_agg_err df group_cols col "mean" hmem (Or.inr (Or.inl rfl)) h hcl,
    grouped_agg_err df group_cols col "std" hmem (Or.inr (Or.inr (Or.inl rfl))) h hcl,
    grouped_agg_err df group_cols col "var" hmem (Or.inr (Or.inr (Or.inr rfl))) h hcl⟩

/-- C5 witness: the amended aggregation theorem at a concrete table whose
column mixes a string with an int, grouped by that same column. -/
theorem agg_nonnumeric_errors_witness :
    ("A" ∈ (DataFrame.mk [("A", [Value.str "a", Value.int 1])]).columns) ∧
    (∃ v ∈ getColD ⟨[("A", [Value.str "a", Value.int 1])]⟩ "A", v.isNumeric = false) ∧
    ((getColD ⟨[("A", [Value.str "a", Value.int 1])]⟩ "A").length
      = (DataFrame.mk [("A", [Value.str "a", Value.int 1])]).len) ∧
    (apply_aggregation (getColD ⟨[("A", [Value.str "a", Value.int 1])]⟩ "A") "sum"
        = .error .typeError ∧
      apply_aggregation (getColD ⟨[("A", [Value.str "a", Value.int 1])]⟩ "A") "mean"
        = .error .typeError ∧
      apply_aggregation (getColD ⟨[("A", [Value.str "a", Value.int 1])]⟩ "A") "std"
        = .error .typeError ∧
      apply_aggregation (getColD ⟨[("A", [Value.str "a", Value.int 1])]⟩ "A") "var"
        = .error .typeError ∧
      DataFrame.agg ⟨[("A", [Value.str "a", Value.int 1])]⟩ [("A", ["sum"])]
        = .error .typeError ∧
      DataFrame.agg ⟨[("A", [Value.str "a", Value.int 1])]⟩ [("A", ["mean"])]
        = .error .typeError ∧
      DataFrame.agg ⟨[("A", [Value.str "a", Value.int 1])]⟩ [("A", ["std"])]
        = .error .typeError ∧
      DataFrame.agg ⟨[("A", [Value.str "a", Value.int 1])]⟩ [("A", ["var"])]
        = .error .typeError ∧
      grouped_agg ⟨[("A", [Value.str "a", Value.int 1])]⟩ ["A"] [("A", ["sum"])]
        = .error .typeError ∧
      grouped_agg ⟨[("A", [Value.str "a", Value.int 1])]⟩ ["A"] [("A", ["mean"])]
        = .error .typeError ∧
      grouped_agg ⟨[("A", [Value.str "a", Value.int 1])]⟩ ["A"] [("A", ["std"])]
        = .error .typeError ∧
      grouped_agg ⟨[("A", [Value.str "a", Value.int 1])]⟩ ["A"] [("A", ["var"])]
        = .error .typeError) :=
  ⟨by decide, by decide, by decide,
    agg_nonnumeric_errors _ _ ["A"] (by decide) (by decide) (by decide)⟩

/-- C5 counterexample: `min` (and `max`) over an all-string, hence
non-numeric, column succeeds and returns a lexicographic extremum
instead of failing with a type error. -/
theorem agg_c5_counterexample :
    (∀ v ∈ getColD ⟨[("A", [Value.str "x", Value.str "y"])]⟩ "A", v.isNumeric = false) ∧
    DataFrame.agg ⟨[("A", [Value.str "x", Value.str "y"])]⟩ [("A", ["min"])]
      = .ok ⟨[("A", [Value.str "x"])]⟩ ∧
    DataFrame.agg ⟨[("A", [Value.str "x", Value.str "y"])]⟩ [("A", ["max"])]
      = .ok ⟨[("A", [Value.str "y"])]⟩ :=
  ⟨by decide, by decide, by decide⟩

/-! ### Tokenizer: blank-line dropping -/

theorem endRecord_no_blank {rows : List (List String)} (row : List String)
    (h : [""] ∉ rows) : [""] ∉ endRecord rows row := by
  rw [endRecord]
  by_cases hc : (row.any fun cell => cell != "") = true ∨ 1 < row.length
  · rw [if_pos hc]
    intro hmem
    rcases List.mem_append.mp hmem with hm | hm
    · exact h hm
    · rw [List.mem_singleton] at hm
      rw [← hm] at hc
      rcases hc with hc | hc <;> simp at hc
  · rw [if_neg hc]; exact h

theorem append_field_ne_blank (row : List String) (field : List Char)
    (h : field ≠ [] ∨ row ≠ []) : row ++ [field.asString] ≠ [""] := by
  intro he
  cases row with
  | nil =>
      simp only [List.nil_append, List.cons.injEq, and_true] at he
      rcases h with h | h
      · apply h
        cases field with
        | nil => rfl
        | cons c cs =>
            have : ((c :: cs).asString).length = ("" : String).length := by rw [he]
            simp [List.asString, String.length] at this
      · exact h rfl
  | cons r rs =>
      have := congrArg List.length he
      simp at this

theorem parseAux_no_blank (d q : Char) (rows : List (List String)) (row : List String)
    (field_chars : List Char) (in_quotes : Bool) (cs : List Char) :
    ∀ (result : List (List String)), [""] ∉ rows →
      parseAux d q rows row field_chars in_quotes cs = .ok result → [""] ∉ result := by
  induction rows, row, field_chars, in_quotes, cs using parseAux.induct d q
  all_goals intro result hrows hok
  all_goals rw [parseAux.eq_def] at hok
  all_goals simp_all
  case case2 =>
    rename_i hcond
    rw [← hok]
    intro hmem
    rcases List.mem_append.mp hmem with hm | hm
    · exact hrows hm
    · exact append_field_ne_blank _ _ hcond ((List.mem_singleton.mp hm).symm)
  all_goals rename_i ih
  all_goals exact ih (endRecord_no_blank _ hrows)

/-- C6 (confirmed): the tokenizer drops any parsed row that consists of
exactly one empty field — no `[""]` row ever appears in its output — and
the record finalizer keeps every row with more than one field (even when
all its fields are empty) while dropping exactly the single-empty-field
row. -/
theorem tokenizer_blank_rows :
    (∀ (delimiter quote_char : Char) (text : String) (rows : List (List String)),
        parse_csv text delimiter quote_char = .ok rows → [""] ∉ rows) ∧
    (∀ (rows : List (List String)) (row : List String), 1 < row.length →
        endRecord rows row = rows ++ [row]) ∧
    (∀ rows : List (List String), endRecord rows [""] = rows) := by
  refine ⟨?_, ?_, ?_⟩
  · intro dl qc text rows hok
    exact parseAux_no_blank dl qc [] [] [] false text.toList rows (by simp) hok
  · intro rows row hlen
    rw [endRecord, if_pos (Or.inr hlen)]
  · intro rows
    rw [endRecord, if_neg]
    simp

/-- C6 witness: parsing text with an all-empty two-field row and a blank
line keeps the former and drops the latter. -/
theorem tokenizer_blank_rows_witness :
    parse_csv ",\n\n" ',' '"' = .ok [["", ""]] ∧ ([""] ∉ [["", ""]]) ∧
    endRecord [] ["", ""] = [["", ""]] ∧ endRecord [] [""] = [] := by
  have hp : parse_csv ",\n\n" ',' '"' = .ok [["", ""]] := by
    simp [parse_csv, parseAux, endRecord]
    decide
  exact ⟨hp, tokenizer_blank_rows.1 ',' '"' ",\n\n" [["", ""]] hp,
    tokenizer_blank_rows.2.1 [] ["", ""] (by decide), tokenizer_blank_rows.2.2 []⟩

/-! ### Tokenizer: quote escaping -/

/-- C7 (confirmed): inside a quoted span a quote immediately followed by
another quote is consumed as a single literal quote with the scanner
staying in quotes; a lone quote ends the quoted span; and the spec's
example parses with the doubled quotes unescaped. -/
theorem tokenizer_escaped_quote :
    (∀ (d q : Char) (rows : List (List String)) (row : List String)
        (field_chars cs : List Char),
        parseAux d q rows row field_chars true (q :: q :: cs)
          = parseAux d q rows row (field_chars ++ [q]) true cs) ∧
    (∀ (d q nxt : Char) (rows : List (List String)) (row : List String)
        (field_chars cs : List Char), nxt ≠ q →
        parseAux d q rows row field_chars true (q :: nxt :: cs)
          = parseAux d q rows row field_chars false (nxt :: cs)) ∧
    parse_csv "Name,Age\n\"Smith, John\",30\n\"Doe, \"\"Jay\"\"\",25\n" ',' '"'
      = .ok [["Name", "Age"], ["Smith, John", "30"], ["Doe, \"Jay\"", "25"]] := by
  refine ⟨?_, ?_, ?_⟩
  · intro d q rows row field cs
    rw [parseAux.eq_def]
    simp
  · intro d q nxt rows row field cs hne
    rw [parseAux.eq_def]
    simp [hne]
  · simp [parse_csv, parseAux, endRecord]
    decide

/-- C7 witness: the two scanner-step equations at concrete inputs. -/
theorem tokenizer_escaped_quote_witness :
    parseAux ',' '"' [] [] [] true ['"', '"', 'z']
      = parseAux ',' '"' [] [] ['"'] true ['z'] ∧
    (('z' : Char) ≠ '"') ∧
    parseAux ',' '"' [] [] [] true ['"', 'z', 'w']
      = parseAux ',' '"' [] [] [] false ['z', 'w'] :=
  ⟨tokenizer_escaped_quote.1 ',' '"' [] [] [] ['z'], by decide,
    tokenizer_escaped_quote.2.1 ',' '"' 'z' [] [] [] ['w'] (by decide)⟩

/-! ### Header handling -/

theorem getD_replicate_default (k j : Nat) :
    (List.replicate k ("" : String)).getD j "" = "" := by
  rcases Nat.lt_or_ge j k with h | h
  · rw [List.getD_eq_getElem _ _ (by simpa using h)]
    simp
  · rw [List.getD_eq_default _ _ (by simpa using h)]

theorem padded_getD (r : List String) (n i : Nat) (hi : i < n) :
    (if r.length < n then r ++ List.replicate (n - r.length) "" else r.take n).getD i ""
      = if i < r.length then r.getD i "" else "" := by
  by_cases hlt : r.length < n
  · rw [if_pos hlt]
    by_cases hir : i < r.length
    · rw [if_pos hir, List.getD_append _ _ _ _ hir]
    · rw [if_neg hir, List.getD_append_right _ _ _ _ (Nat.le_of_not_lt hir),
        getD_replicate_default]
  · rw [if_neg hlt]
    have hir : i < r.length := Nat.lt_of_lt_of_le hi (Nat.le_of_not_lt hlt)
    rw [if_pos hir]
    rw [List.getD_eq_getElem _ _ (by simp [hi, hir]), List.getD_eq_getElem _ _ hir]
    simp [List.getElem_take]

theorem map_getD_range {α : Type} (l : List α) (dflt : α) :
    (List.range l.length).map (fun i => l.getD i dflt) = l := by
  apply List.ext_getElem
  · simp
  · intro i h1 h2
    simp [List.getD, List.getElem?_eq_getElem h2]

/-- C9 (confirmed): when parsing with a header, the first parsed row is
the ordered column-name list, and every later row becomes a record keyed
by the header names in order — a cell holds the row's value at that
position when the row is long enough and the empty string otherwise, and
fields beyond the header's length are discarded; no error is raised for
short or long rows. -/
theorem header_padding (text : String) (d q : Char) (header : List String)
    (rest : List (List String))
    (h : parse_csv text d q = .ok (header :: rest)) :
    read_csv_records text d q = .ok (rest.map (fun r =>
      (List.range header.length).map (fun i =>
        (header.getD i "", if i < r.length then r.getD i "" else "")))) ∧
    (∀ r ∈ rest,
      ((List.range header.length).map (fun i =>
        (header.getD i "", if i < r.length then r.getD i "" else ""))).map Prod.fst
        = header) ∧
    (∀ r ∈ rest,
      ((List.range header.length).map (fun i =>
        (header.getD i "", if i < r.length then r.getD i "" else ""))).length
        = header.length) := by
  refine ⟨?_, ?_, ?_⟩
  · have hred : read_csv_records text d q = .ok (rest.map (fun r =>
        (List.range header.length).map (fun i =>
          (header.getD i "",
            (if r.length < header.length then r ++ List.replicate (header.length - r.length) ""
             else r.take header.length).getD i "")))) := by
      rw [read_csv_records, h]
      rfl
    rw [hred]
    congr 1
    apply List.map_congr_left
    intro r _
    apply List.map_congr_left
    intro i hi
    rw [List.mem_range] at hi
    rw [padded_getD r header.length i hi]
  · intro r _
    rw [List.map_map]
    have : (Prod.fst ∘ fun i => (header.getD i "", if i < r.length then r.getD i "" else ""))
        = fun i => header.getD i "" := by funext i; rfl
    rw [this, map_getD_range]
  · intro r _
    simp

/-- C9 witness: a concrete CSV with one short row (padded) and one long
row (truncated). -/
theorem header_padding_witness :
    parse_csv "a,b\nx\np,q,r\n" ',' '"' = .ok [["a", "b"], ["x"], ["p", "q", "r"]] ∧
    (read_csv_records "a,b\nx\np,q,r\n" ',' '"'
        = .ok ([["x"], ["p", "q", "r"]].map (fun r =>
          (List.range (["a", "b"] : List String).length).map (fun i =>
            ((["a", "b"] : List String).getD i "",
              if i < r.length then r.getD i "" else "")))) ∧
      (∀ r ∈ [["x"], ["p", "q", "r"]],
        ((List.range (["a", "b"] : List String).length).map (fun i =>
          ((["a", "b"] : List String).getD i "",
            if i < r.length then r.getD i "" else ""))).map Prod.fst
          = ["a", "b"]) ∧
      (∀ r ∈ [["x"], ["p", "q", "r"]],
        ((List.range (["a", "b"] : List String).length).map (fun i =>
          ((["a", "b"] : List String).getD i "",
            if i < r.length then r.getD i "" else ""))).length
          = (["a", "b"] : List String).length)) := by
  have hp : parse_csv "a,b\nx\np,q,r\n" ',' '"'
      = .ok [["a", "b"], ["x"], ["p", "q", "r"]] := by
    simp [parse_csv, parseAux, endRecord]
    decide
  exact ⟨hp, header_padding "a,b\nx\np,q,r\n" ',' '"' ["a", "b"] [["x"], ["p", "q", "r"]] hp⟩

/-! ### Join: closed forms -/

/-- The output column names of a join, in emission order. -/
def outNames (L R : DataFrame) (onCols : List String) (suffixes : String × String) :
    List String :=
  onCols ++ (left_cols L onCols).map (outColName (overlapCols L R onCols) suffixes.1)
    ++ (right_cols R onCols).map (outColName (overlapCols L R onCols) suffixes.2)

theorem fst_matchPairs (L R : DataFrame) (onCols : List String) (suffixes : String × String)
    (i j : Nat) :
    (matchPairs L R onCols suffixes i j).map Prod.fst = outNames L R onCols suffixes := by
  simp only [matchPairs, outNames, List.map_append, List.map_map]
  rw [show (Prod.fst ∘ fun col => (col, (getColD L col).getD i Value.none)) = id from
    funext (fun _ => rfl), List.map_id]
  rw [show (Prod.fst ∘ fun col =>
      (outColName (overlapCols L R onCols) suffixes.1 col, (getColD L col).getD i Value.none))
    = outColName (overlapCols L R onCols) suffixes.1 from funext (fun _ => rfl)]
  rw [show (Prod.fst ∘ fun col =>
      (outColName (overlapCols L R onCols) suffixes.2 col, (getColD R col).getD j Value.none))
    = outColName (overlapCols L R onCols) suffixes.2 from funext (fun _ => rfl)]

theorem fst_leftNullPairs (L R : DataFrame) (onCols : List String) (suffixes : String × String)
    (i : Nat) :
    (leftNullPairs L R onCols suffixes i).map Prod.fst = outNames L R onCols suffixes := by
  simp only [leftNullPairs, outNames, List.map_append, List.map_map]
  rw [show (Prod.fst ∘ fun col => (col, (getColD L col).getD i Value.none)) = id from
    funext (fun _ => rfl), List.map_id]
  rw [show (Prod.fst ∘ fun col =>
      (outColName (overlapCols L R onCols) suffixes.1 col, (getColD L col).getD i Value.none))
    = outColName (overlapCols L R onCols) suffixes.1 from funext (fun _ => rfl)]
  rw [show (Prod.fst ∘ fun col =>
      (outColName (overlapCols L R onCols) suffixes.2 col, Value.none))
    = outColName (overlapCols L R onCols) suffixes.2 from funext (fun _ => rfl)]

theorem fst_rightNullPairs (L R : DataFrame) (onCols : List String) (suffixes : String × String)
    (j : Nat) :
    (rightNullPairs L R onCols suffixes j).map Prod.fst = outNames L R onCols suffixes := by
  simp only [rightNullPairs, outNames, List.map_append, List.map_map]
  rw [show (Prod.fst ∘ fun col => (col, (getColD R col).getD j Value.none)) = id from
    funext (fun _ => rfl), List.map_id]
  rw [show (Prod.fst ∘ fun col =>
      (outColName (overlapCols L R onCols) suffixes.1 col, Value.none))
    = outColName (overlapCols L R onCols) suffixes.1 from funext (fun _ => rfl)]
  rw [show (Prod.fst ∘ fun col =>
      (outColName (overlapCols L R onCols) suffixes.2 col, (getColD R col).getD j Value.none))
    = outColName (overlapCols L R onCols) suffixes.2 from funext (fun _ => rfl)]

/-- The matched (inner) emissions of a join, in emission order: one row
per pair of a left row and one of its right matches. -/
def innerPss (L R : DataFrame) (onCols : List String) (suffixes : String × String) :
    List (List (String × Value)) :=
  (List.range L.len).flatMap (fun i =>
    (dGet (right_index R onCols) (keyOf L onCols i)).map (fun j =>
      matchPairs L R onCols suffixes i j))

/-- The left rows with no key match in the right table. -/
def unmatchedLeft (L R : DataFrame) (onCols : List String) : List Nat :=
  (List.range L.len).filter (fun i =>
    decide (dGet (right_index R onCols) (keyOf L onCols i) = []))

/-- The right rows whose key no left row shares. -/
def unmatchedRight (L R : DataFrame) (onCols : List String) : List Nat :=
  (List.range R.len).filter (fun j =>
    decide (keyOf R onCols j ∉ (List.range L.len).map (keyOf L onCols)))

/-- All emissions of a left join, in emission order. -/
def leftPss (L R : DataFrame) (onCols : List String) (suffixes : String × String) :
    List (List (String × Value)) :=
  (List.range L.len).flatMap (fun i =>
    match dGet (right_index R onCols) (keyOf L onCols i) with
    | [] => [leftNullPairs L R onCols suffixes i]
    | ms => ms.map (fun j => matchPairs L R onCols suffixes i j))

theorem dGet_right_index (R : DataFrame) (onCols : List String) (k : List Value) :
    dGet (right_index R onCols) k
      = (List.range R.len).filter (fun j => decide (keyOf R onCols j = k)) := by
  rw [right_index]
  have h := dGet_foldl_dAppend (List.range R.len) (keyOf R onCols) id [] k
  simpa using h

/-! ### Join: from the imperative folds to the closed forms -/

theorem join_inner_raw (L R : DataFrame) (onCols : List String) (suffixes : String × String)
    (h1 : ∀ col ∈ onCols, col ∈ L.columns) (h2 : ∀ col ∈ onCols, col ∈ R.columns) :
    L.join R onCols "inner" suffixes = mkDF ((List.range L.len).foldl (fun acc i =>
      let right_matches := dGet (right_index R onCols) (keyOf L onCols i)
      if right_matches ≠ [] then
        right_matches.foldl (fun a j => emitPairs a (matchPairs L R onCols suffixes i j)) acc
      else acc) []) := by
  rw [DataFrame.join, if_neg (not_not_intro h1), if_neg (not_not_intro h2)]
  rfl

theorem join_left_raw (L R : DataFrame) (onCols : List String) (suffixes : String × String)
    (h1 : ∀ col ∈ onCols, col ∈ L.columns) (h2 : ∀ col ∈ onCols, col ∈ R.columns) :
    L.join R onCols "left" suffixes = mkDF ((List.range L.len).foldl (fun acc i =>
      let right_matches := dGet (right_index R onCols) (keyOf L onCols i)
      if right_matches ≠ [] then
        right_matches.foldl (fun a j => emitPairs a (matchPairs L R onCols suffixes i j)) acc
      else emitPairs acc (leftNullPairs L R onCols suffixes i)) []) := by
  rw [DataFrame.join, if_neg (not_not_intro h1), if_neg (not_not_intro h2)]
  rfl

theorem join_outer_raw (L R : DataFrame) (onCols : List String) (suffixes : String × String)
    (h1 : ∀ col ∈ onCols, col ∈ L.columns) (h2 : ∀ col ∈ onCols, col ∈ R.columns) :
    L.join R onCols "outer" suffixes = mkDF (
      let s := (List.range L.len).foldl (fun s i =>
        match s with
        | (acc, matched_left, matched_right) =>
          let right_matches := dGet (right_index R onCols) (keyOf L onCols i)
          if right_matches ≠ [] then
            let inner := right_matches.foldl (fun p j =>
              (emitPairs p.1 (matchPairs L R onCols suffixes i j), p.2 ++ [j]))
              (acc, matched_right)
            (inner.1, matched_left ++ [i], inner.2)
          else (acc, matched_left, matched_right))
        (([] : List (String × List Value)), ([] : List Nat), ([] : List Nat))
      let d := (List.range L.len).foldl (fun acc i =>
        if i ∉ s.2.1 then emitPairs acc (leftNullPairs L R onCols suffixes i) else acc) s.1
      (List.range R.len).foldl (fun acc j =>
        if j ∉ s.2.2 then emitPairs acc (rightNullPairs L R onCols suffixes j) else acc) d) := by
  rw [DataFrame.join, if_neg (not_not_intro h1), if_neg (not_not_intro h2)]
  rfl

theorem foldl_inner_eq (L R : DataFrame) (onCols : List String) (suffixes : String × String)
    (d0 : List (String × List Value)) :
    (List.range L.len).foldl (fun acc i =>
      let right_matches := dGet (right_index R onCols) (keyOf L onCols i)
      if right_matches ≠ [] then
        right_matches.foldl (fun a j => emitPairs a (matchPairs L R onCols suffixes i j)) acc
      else acc) d0
    = (innerPss L R onCols suffixes).foldl emitPairs d0 := by
  rw [innerPss, foldl_flatten]
  apply List.foldl_ext
  intro acc i _
  by_cases hm : dGet (right_index R onCols) (keyOf L onCols i) = [] <;>
    simp [hm, List.foldl_map]

theorem foldl_left_eq (L R : DataFrame) (onCols : List String) (suffixes : String × String)
    (d0 : List (String × List Value)) :
    (List.range L.len).foldl (fun acc i =>
      let right_matches := dGet (right_index R onCols) (keyOf L onCols i)
      if right_matches ≠ [] then
        right_matches.foldl (fun a j => emitPairs a (matchPairs L R onCols suffixes i j)) acc
      else emitPairs acc (leftNullPairs L R onCols suffixes i)) d0
    = (leftPss L R onCols suffixes).foldl emitPairs d0 := by
  rw [leftPss, foldl_flatten]
  apply List.foldl_ext
  intro acc i _
  cases hm : dGet (right_index R onCols) (keyOf L onCols i) with
  | nil => simp [hm]
  | cons j ms => simp [hm, List.foldl_map]

theorem pair_foldl (h : Nat → List (String × Value)) :
    ∀ (ms : List Nat) (acc : List (String × List Value)) (mR : List Nat),
    ms.foldl (fun p j => (emitPairs p.1 (h j), p.2 ++ [j])) (acc, mR)
      = ((ms.map h).foldl emitPairs acc, mR ++ ms) := by
  intro ms
  induction ms with
  | nil => intro acc mR; simp
  | cons j ms ih =>
      intro acc mR
      simp only [List.foldl_cons, List.map_cons]
      rw [ih]
      simp

theorem outer_phase1 (L R : DataFrame) (onCols : List String) (suffixes : String × String) :
    ∀ (l : List Nat) (acc : List (String × List Value)) (mL mR : List Nat),
    l.foldl (fun s i =>
        match s with
        | (acc, matched_left, matched_right) =>
          let right_matches := dGet (right_index R onCols) (keyOf L onCols i)
          if right_matches ≠ [] then
            let inner := right_matches.foldl (fun p j =>
              (emitPairs p.1 (matchPairs L R onCols suffixes i j), p.2 ++ [j]))
              (acc, matched_right)
            (inner.1, matched_left ++ [i], inner.2)
          else (acc, matched_left, matched_right)) (acc, mL, mR)
      = ((l.flatMap (fun i => (dGet (right_index R onCols) (keyOf L onCols i)).map
            (fun j => matchPairs L R onCols suffixes i j))).foldl emitPairs acc,
         mL ++ l.filter (fun i =>
           decide (dGet (right_index R onCols) (keyOf L onCols i) ≠ [])),
         mR ++ l.flatMap (fun i => dGet (right_index R onCols) (keyOf L onCols i))) := by
  intro l
  have hfun : (fun (s : List (String × List Value) × List Nat × List Nat) (i : Nat) =>
      match s with
      | (acc, matched_left, matched_right) =>
        let right_matches := dGet (right_index R onCols) (keyOf L onCols i)
        if right_matches ≠ [] then
          let inner := right_matches.foldl (fun p j =>
            (emitPairs p.1 (matchPairs L R onCols suffixes i j), p.2 ++ [j]))
            (acc, matched_right)
          (inner.1, matched_left ++ [i], inner.2)
        else (acc, matched_left, matched_right))
      = (fun s i =>
        let right_matches := dGet (right_index R onCols) (keyOf L onCols i)
        if right_matches ≠ [] then
          let inner := right_matches.foldl (fun p j =>
            (emitPairs p.1 (matchPairs L R onCols suffixes i j), p.2 ++ [j]))
            (s.1, s.2.2)
          (inner.1, s.2.1 ++ [i], inner.2)
        else s) := by
    funext s i
    obtain ⟨a, b, c⟩ := s
    rfl
  rw [hfun]
  induction l with
  | nil => intro acc mL mR; simp
  | cons i l ih =>
      intro acc mL mR
      simp only [List.foldl_cons]
      by_cases hm : dGet (right_index R onCols) (keyOf L onCols i) = []
      · simp only [hm, ne_eq, not_true_eq_false, if_false]
        rw [ih]
        simp [hm]
      · simp only [ne_eq, hm, not_false_eq_true, if_true,
          pair_foldl (fun j => matchPairs L R onCols suffixes i j)]
        rw [ih]
        simp [hm, List.foldl_append]

theorem fst_mem_innerPss (L R : DataFrame) (onCols : List String) (suffixes : String × String) :
    ∀ ps ∈ innerPss L R onCols suffixes, ps.map Prod.fst = outNames L R onCols suffixes := by
  intro ps hps
  rw [innerPss] at hps
  simp only [List.mem_flatMap, List.mem_map] at hps
  obtain ⟨i, _, j, _, rfl⟩ := hps
  exact fst_matchPairs L R onCols suffixes i j

theorem fst_mem_leftPss (L R : DataFrame) (onCols : List String) (suffixes : String × String) :
    ∀ ps ∈ leftPss L R onCols suffixes, ps.map Prod.fst = outNames L R onCols suffixes := by
  intro ps hps
  rw [leftPss] at hps
  simp only [List.mem_flatMap] at hps
  obtain ⟨i, _, hmem⟩ := hps
  cases hm : dGet (right_index R onCols) (keyOf L onCols i) with
  | nil =>
      rw [hm] at hmem
      simp only [List.mem_singleton] at hmem
      rw [hmem]
      exact fst_leftNullPairs L R onCols suffixes i
  | cons j ms =>
      rw [hm] at hmem
      simp only [List.mem_map] at hmem
      obtain ⟨j', _, rfl⟩ := hmem
      exact fst_matchPairs L R onCols suffixes i j'

theorem join_inner_eq (L R : DataFrame) (onCols : List String) (suffixes : String × String)
    (h1 : ∀ col ∈ onCols, col ∈ L.columns) (h2 : ∀ col ∈ onCols, col ∈ R.columns)
    (hnd : (outNames L R onCols suffixes).Nodup) :
    L.join R onCols "inner" suffixes
      = .ok ⟨colsOfRows (outNames L R onCols suffixes) (innerPss L R onCols suffixes)⟩ := by
  rw [join_inner_raw L R onCols suffixes h1 h2, foldl_inner_eq,
    foldl_emitPairs _ _ (fst_mem_innerPss L R onCols suffixes) hnd, mkDF_colsOfRows]

theorem join_left_eq (L R : DataFrame) (onCols : List String) (suffixes : String × String)
    (h1 : ∀ col ∈ onCols, col ∈ L.columns) (h2 : ∀ col ∈ onCols, col ∈ R.columns)
    (hnd : (outNames L R onCols suffixes).Nodup) :
    L.join R onCols "left" suffixes
      = .ok ⟨colsOfRows (outNames L R onCols suffixes) (leftPss L R onCols suffixes)⟩ := by
  rw [join_left_raw L R onCols suffixes h1 h2, foldl_left_eq,
    foldl_emitPairs _ _ (fst_mem_leftPss L R onCols suffixes) hnd, mkDF_colsOfRows]

theorem foldl_guard_p {α β : Type} (l : List α) (p : α → Prop) [DecidablePred p]
    (f : β → α → β) (init : β) :
    l.foldl (fun acc x => if p x then f acc x else acc) init
      = (l.filter (fun x => decide (p x))).foldl f init := by
  induction l generalizing init with
  | nil => rfl
  | cons x xs ih => by_cases h : p x <;> simp [h, ih, List.filter_cons]

theorem join_outer_raw2 (L R : DataFrame) (onCols : List String) (suffixes : String × String)
    (h1 : ∀ col ∈ onCols, col ∈ L.columns) (h2 : ∀ col ∈ onCols, col ∈ R.columns) :
    L.join R onCols "outer" suffixes = mkDF (
      (List.range R.len).foldl (fun acc j =>
        if j ∉ (List.range L.len).flatMap
            (fun i => dGet (right_index R onCols) (keyOf L onCols i))
        then emitPairs acc (rightNullPairs L R onCols suffixes j) else acc)
      ((List.range L.len).foldl (fun acc i =>
        if i ∉ (List.range L.len).filter
            (fun i => decide (dGet (right_index R onCols) (keyOf L onCols i) ≠ []))
        then emitPairs acc (leftNullPairs L R onCols suffixes i) else acc)
       ((innerPss L R onCols suffixes).foldl emitPairs []))) := by
  rw [join_outer_raw L R onCols suffixes h1 h2,
    outer_phase1 L R onCols suffixes (List.range L.len) [] [] []]
  rw [show ((List.range L.len).flatMap (fun i => (dGet (right_index R onCols)
      (keyOf L onCols i)).map (fun j => matchPairs L R onCols suffixes i j))).foldl emitPairs []
      = (innerPss L R onCols suffixes).foldl emitPairs [] from rfl]
  rfl

theorem filter_notmem_matchedL (L R : DataFrame) (onCols : List String) :
    (List.range L.len).filter (fun i => decide (i ∉ (List.range L.len).filter
        (fun i => decide (dGet (right_index R onCols) (keyOf L onCols i) ≠ []))))
      = unmatchedLeft L R onCols := by
  rw [unmatchedLeft]
  apply List.filter_congr
  intro i hi
  simp only [decide_eq_decide, List.mem_filter, hi, true_and, not_and, decide_eq_true_eq]
  constructor
  · intro hno
    by_contra hne
    exact hno hne
  · intro he hne
    exact hne he

theorem mem_dGet_right_index (L R : DataFrame) (onCols : List String) (i j : Nat) :
    j ∈ dGet (right_index R onCols) (keyOf L onCols i)
      ↔ (j ∈ List.range R.len ∧ keyOf R onCols j = keyOf L onCols i) := by
  rw [dGet_right_index]
  simp [List.mem_filter]

theorem filter_notmem_matchedR (L R : DataFrame) (onCols : List String) :
    (List.range R.len).filter (fun j => decide (j ∉ (List.range L.len).flatMap
        (fun i => dGet (right_index R onCols) (keyOf L onCols i))))
      = unmatchedRight L R onCols := by
  rw [unmatchedRight]
  apply List.filter_congr
  intro j hj
  simp only [decide_eq_decide, List.mem_flatMap, List.mem_map]
  constructor
  · intro hno hin
    obtain ⟨i, hi, hk⟩ := hin
    exact hno ⟨i, hi, (mem_dGet_right_index L R onCols i j).mpr ⟨hj, hk.symm⟩⟩
  · rintro hnk ⟨i, hi, hd⟩
    obtain ⟨_, hk⟩ := (mem_dGet_right_index L R onCols i j).mp hd
    exact hnk ⟨i, hi, hk.symm⟩

theorem foldl_three (A : List (List (String × Value))) (uL uR : List Nat)
    (fL fR : Nat → List (String × Value)) :
    uR.foldl (fun acc j => emitPairs acc (fR j))
      (uL.foldl (fun acc i => emitPairs acc (fL i)) (A.foldl emitPairs []))
    = (A ++ uL.map fL ++ uR.map fR).foldl emitPairs [] := by
  rw [List.foldl_append, List.foldl_append, List.foldl_map, List.foldl_map]

theorem fst_mem_outerPss (L R : DataFrame) (onCols : List String) (suffixes : String × String) :
    ∀ ps ∈ innerPss L R onCols suffixes
        ++ (unmatchedLeft L R onCols).map (leftNullPairs L R onCols suffixes)
        ++ (unmatchedRight L R onCols).map (rightNullPairs L R onCols suffixes),
      ps.map Prod.fst = outNames L R onCols suffixes := by
  intro ps hps
  rcases List.mem_append.mp hps with hps | hps
  · rcases List.mem_append.mp hps with hps | hps
    · exact fst_mem_innerPss L R onCols suffixes ps hps
    · obtain ⟨i, _, rfl⟩ := List.mem_map.mp hps
      exact fst_leftNullPairs L R onCols suffixes i
  · obtain ⟨j, _, rfl⟩ := List.mem_map.mp hps
    exact fst_rightNullPairs L R onCols suffixes j

theorem join_outer_eq (L R : DataFrame) (onCols : List String) (suffixes : String × String)
    (h1 : ∀ col ∈ onCols, col ∈ L.columns) (h2 : ∀ col ∈ onCols, col ∈ R.columns)
    (hnd : (outNames L R onCols suffixes).Nodup) :
    L.join R onCols "outer" suffixes
      = .ok ⟨colsOfRows (outNames L R onCols suffixes)
          (innerPss L R onCols suffixes
            ++ (unmatchedLeft L R onCols).map (leftNullPairs L R onCols suffixes)
            ++ (unmatchedRight L R onCols).map (rightNullPairs L R onCols suffixes))⟩ := by
  rw [join_outer_raw2 L R onCols suffixes h1 h2]
  rw [foldl_guard_p, foldl_guard_p, filter_notmem_matchedL, filter_notmem_matchedR]
  rw [foldl_three (innerPss L R onCols suffixes) (unmatchedLeft L R onCols)
    (unmatchedRight L R onCols) (leftNullPairs L R onCols suffixes)
    (rightNullPairs L R onCols suffixes)]
  rw [foldl_emitPairs _ _ (fst_mem_outerPss L R onCols suffixes) hnd, mkDF_colsOfRows]

/-! ### Join: row counts -/

theorem count_key_right (R : DataFrame) (onCols : List String) (k : List Value) :
    (dGet (right_index R onCols) k).length
      = ((List.range R.len).map (keyOf R onCols)).countP (fun k' => decide (k' = k)) := by
  rw [dGet_right_index, ← List.countP_eq_length_filter, List.countP_map]
  apply List.countP_congr
  intro j _
  simp [Function.comp]

theorem sum_map_countP {α : Type} [DecidableEq α] (l : List α) (f : α → ℕ) :
    (l.map f).sum = ∑ k ∈ l.toFinset, (l.countP (fun y => decide (y = k))) * f k := by
  induction l with
  | nil => simp
  | cons x xs ih =>
      simp only [List.map_cons, List.sum_cons, ih, List.toFinset_cons]
      have hsum : ∀ (S : Finset α), x ∈ S →
          ∑ k ∈ S, ((x :: xs).countP (fun y => decide (y = k))) * f k
            = (∑ k ∈ S, (xs.countP (fun y => decide (y = k))) * f k) + f x := by
        intro S hxS
        have hterm : ∀ k ∈ S, ((x :: xs).countP (fun y => decide (y = k))) * f k
            = (xs.countP (fun y => decide (y = k))) * f k + (if x = k then f k else 0) := by
          intro k _
          rw [List.countP_cons]
          by_cases h : x = k <;> simp [h] <;> ring
        rw [Finset.sum_congr rfl hterm, Finset.sum_add_distrib, Finset.sum_ite_eq S x f,
          if_pos hxS]
      by_cases hx : x ∈ xs.toFinset
      · rw [Finset.insert_eq_self.mpr hx, hsum xs.toFinset hx]
        omega
      · rw [hsum (insert x xs.toFinset) (Finset.mem_insert_self x _),
          Finset.sum_insert hx]
        have hz : xs.countP (fun y => decide (y = x)) = 0 := by
          rw [List.countP_eq_zero]
          intro y hy
          simp only [decide_eq_true_eq]
          intro he
          exact hx (List.mem_toFinset.mpr (he ▸ hy))
        rw [hz]
        omega

theorem length_innerPss (L R : DataFrame) (onCols : List String) (suffixes : String × String) :
    (innerPss L R onCols suffixes).length
      = ∑ k ∈ (((List.range L.len).map (keyOf L onCols)).toFinset
            ∩ ((List.range R.len).map (keyOf R onCols)).toFinset),
          (((List.range L.len).map (keyOf L onCols)).countP (fun k' => decide (k' = k)))
            * (((List.range R.len).map (keyOf R onCols)).countP (fun k' => decide (k' = k))) := by
  rw [innerPss, List.length_flatMap]
  have hmap : (List.map (List.length ∘ fun i => (dGet (right_index R onCols)
      (keyOf L onCols i)).map (fun j => matchPairs L R onCols suffixes i j)) (List.range L.len))
      = ((List.range L.len).map (keyOf L onCols)).map (fun k =>
          ((List.range R.len).map (keyOf R onCols)).countP (fun k' => decide (k' = k))) := by
    rw [List.map_map]
    apply List.map_congr_left
    intro i _
    simp only [Function.comp_apply, List.length_map]
    exact count_key_right R onCols (keyOf L onCols i)
  rw [hmap, sum_map_countP]
  have hsub : (((List.range L.len).map (keyOf L onCols)).toFinset
      ∩ ((List.range R.len).map (keyOf R onCols)).toFinset)
      ⊆ ((List.range L.len).map (keyOf L onCols)).toFinset := Finset.inter_subset_left
  have hz : ∀ k ∈ ((List.range L.len).map (keyOf L onCols)).toFinset,
      k ∉ (((List.range L.len).map (keyOf L onCols)).toFinset
        ∩ ((List.range R.len).map (keyOf R onCols)).toFinset) →
      (((List.range L.len).map (keyOf L onCols)).countP (fun k' => decide (k' = k)))
        * (((List.range R.len).map (keyOf R onCols)).countP (fun k' => decide (k' = k))) = 0 := by
    intro k hk hkn
    have hknr : k ∉ ((List.range R.len).map (keyOf R onCols)).toFinset := by
      intro hc
      exact hkn (Finset.mem_inter.mpr ⟨hk, hc⟩)
    rw [List.mem_toFinset] at hknr
    have : ((List.range R.len).map (keyOf R onCols)).countP (fun k' => decide (k' = k)) = 0 := by
      rw [List.countP_eq_zero]
      intro y hy
      simp only [decide_eq_true_eq]
      intro he
      exact hknr (he ▸ hy)
    rw [this, Nat.mul_zero]
  exact (Finset.sum_subset hsub hz).symm

theorem length_leftPss (L R : DataFrame) (onCols : List String) (suffixes : String × String) :
    (leftPss L R onCols suffixes).length
      = (innerPss L R onCols suffixes).length + (unmatchedLeft L R onCols).length := by
  rw [leftPss, innerPss, unmatchedLeft, List.length_flatMap, List.length_flatMap,
    ← List.countP_eq_length_filter]
  generalize List.range L.len = l
  induction l with
  | nil => simp
  | cons i l ih =>
      simp only [List.map_cons, List.sum_cons, List.countP_cons]
      rw [ih]
      cases hm : dGet (right_index R onCols) (keyOf L onCols i) with
      | nil =>
          simp [hm]
          omega
      | cons j ms =>
          simp [hm]
          omega

theorem pval_const_none (ps : List (String × Value)) (h : ∀ p ∈ ps, p.2 = Value.none)
    (nm : String) : pval ps nm = Value.none := by
  rw [pval]
  cases hf : ps.find? (fun p => decide (p.1 = nm)) with
  | none => rfl
  | some p => exact h p (List.mem_of_find?_eq_some hf)

theorem pval_leftNullPairs_right (L R : DataFrame) (onCols : List String)
    (suffixes : String × String) (i : Nat) (hnd : (outNames L R onCols suffixes).Nodup)
    (c : String) (hc : c ∈ right_cols R onCols) :
    pval (leftNullPairs L R onCols suffixes i)
      (outColName (overlapCols L R onCols) suffixes.2 c) = Value.none := by
  have hmem : outColName (overlapCols L R onCols) suffixes.2 c
      ∈ (right_cols R onCols).map (outColName (overlapCols L R onCols) suffixes.2) :=
    List.mem_map_of_mem _ hc
  have hnotin : outColName (overlapCols L R onCols) suffixes.2 c
      ∉ (onCols ++ (left_cols L onCols).map (outColName (overlapCols L R onCols) suffixes.1)) := by
    intro hcon
    have hd := (List.nodup_append.mp (by
      rw [outNames] at hnd
      exact hnd)).2.2
    exact hd hcon hmem
  rw [leftNullPairs, pval_append_right]
  · apply pval_const_none
    intro p hp
    simp only [List.mem_map] at hp
    obtain ⟨c', _, rfl⟩ := hp
    rfl
  · rw [List.map_append]
    rw [show (onCols.map (fun col => (col, (getColD L col).getD i Value.none))).map Prod.fst
        = onCols from by
      rw [List.map_map]
      rw [show (Prod.fst ∘ fun col => (col, (getColD L col).getD i Value.none)) = id from
        funext (fun _ => rfl), List.map_id]]
    rw [show ((left_cols L onCols).map (fun col =>
        (outColName (overlapCols L R onCols) suffixes.1 col,
          (getColD L col).getD i Value.none))).map Prod.fst
        = (left_cols L onCols).map (outColName (overlapCols L R onCols) suffixes.1) from by
      rw [List.map_map]
      rfl]
    exact hnotin

theorem outNames_ne_nil (L R : DataFrame) (onCols : List String) (suffixes : String × String)
    (hne : onCols ≠ []) : outNames L R onCols suffixes ≠ [] := by
  rw [outNames]
  intro hcon
  rcases onCols with _ | ⟨c, cs⟩
  · exact hne rfl
  · simp at hcon

/-- C3 (confirmed): the inner join's row count equals the sum, over each
key value shared by both tables, of the number of left rows with that key
times the number of right rows with that key; every left row emits one
output row per right match (fan-out), so an unmatched left row emits
none. -/
theorem inner_join_rowcount (L R : DataFrame) (onCols : List String)
    (suffixes : String × String)
    (h1 : ∀ col ∈ onCols, col ∈ L.columns) (h2 : ∀ col ∈ onCols, col ∈ R.columns)
    (hne : onCols ≠ []) (hnd : (outNames L R onCols suffixes).Nodup) :
    ∃ out : DataFrame, L.join R onCols "inner" suffixes = .ok out ∧
      out.cols = colsOfRows (outNames L R onCols suffixes) (innerPss L R onCols suffixes) ∧
      out.len = ∑ k ∈ (((List.range L.len).map (keyOf L onCols)).toFinset
          ∩ ((List.range R.len).map (keyOf R onCols)).toFinset),
        (((List.range L.len).map (keyOf L onCols)).countP (fun k' => decide (k' = k)))
          * (((List.range R.len).map (keyOf R onCols)).countP (fun k' => decide (k' = k))) ∧
      (∀ i ∈ List.range L.len,
        (dGet (right_index R onCols) (keyOf L onCols i)).length
          = ((List.range R.len).map (keyOf R onCols)).countP
              (fun k' => decide (k' = keyOf L onCols i))) := by
  refine ⟨_, join_inner_eq L R onCols suffixes h1 h2 hnd, rfl, ?_, ?_⟩
  · rw [len_colsOfRows _ _ (outNames_ne_nil L R onCols suffixes hne)]
    exact length_innerPss L R onCols suffixes
  · intro i _
    exact count_key_right R onCols (keyOf L onCols i)

/-- C2 (amended): in a left join every left row with no key match in the
right table emits exactly one output row, and that row's right non-key
columns all hold Python's `None` — a value distinct from the string "NA"
and from the empty string. -/
theorem left_join_nulls (L R : DataFrame) (onCols : List String)
    (suffixes : String × String)
    (h1 : ∀ col ∈ onCols, col ∈ L.columns) (h2 : ∀ col ∈ onCols, col ∈ R.columns)
    (hne : onCols ≠ []) (hnd : (outNames L R onCols suffixes).Nodup) :
    ∃ out : DataFrame, L.join R onCols "left" suffixes = .ok out ∧
      out.cols = colsOfRows (outNames L R onCols suffixes) (leftPss L R onCols suffixes) ∧
      out.len = (innerPss L R onCols suffixes).length
        + (unmatchedLeft L R onCols).length ∧
      (∀ i ∈ unmatchedLeft L R onCols,
        dGet (right_index R onCols) (keyOf L onCols i) = [] ∧
        ∀ c ∈ right_cols R onCols,
          pval (leftNullPairs L R onCols suffixes i)
            (outColName (overlapCols L R onCols) suffixes.2 c) = Value.none) ∧
      Value.none ≠ Value.str "NA" ∧ Value.none ≠ Value.str "" := by
  refine ⟨_, join_left_eq L R onCols suffixes h1 h2 hnd, rfl, ?_, ?_, by decide, by decide⟩
  · rw [len_colsOfRows _ _ (outNames_ne_nil L R onCols suffixes hne)]
    exact length_leftPss L R onCols suffixes
  · intro i hi
    have hd : dGet (right_index R onCols) (keyOf L onCols i) = [] := by
      rw [unmatchedLeft] at hi
      simp only [List.mem_filter, decide_eq_true_eq] at hi
      exact hi.2
    exact ⟨hd, fun c hc => pval_leftNullPairs_right L R onCols suffixes i hnd c hc⟩

/-- C2 counterexample: in the spec's own left-join example the unmatched
left row's `v` cell is Python's `None`, which is neither the string "NA"
nor the empty string. -/
theorem left_join_c2_counterexample :
    DataFrame.join ⟨[("id", [Value.int 1, Value.int 2, Value.int 3])]⟩
        ⟨[("id", [Value.int 2, Value.int 3, Value.int 4]),
          ("v", [Value.str "x", Value.str "y", Value.str "z"])]⟩ ["id"] "left" ("_x", "_y")
      = .ok ⟨[("id", [Value.int 1, Value.int 2, Value.int 3]),
             ("v", [Value.none, Value.str "x", Value.str "y"])]⟩ ∧
    Value.none ≠ Value.str "NA" ∧ Value.none ≠ Value.str "" :=
  ⟨by decide, by decide, by decide⟩

/-- C4 (confirmed): the outer join emits, in this fixed order, the
inner-matched rows, then the unmatched left rows, then the unmatched
right rows; its row count is the inner join's plus the two unmatched
counts; and no input row feeds two phases — a left row is in the
unmatched-left pass exactly when it has no right match, and a right row
is in the unmatched-right pass exactly when no left row shares its key,
also when one key matches several rows on both sides. -/
theorem outer_join_phases (L R : DataFrame) (onCols : List String)
    (suffixes : String × String)
    (h1 : ∀ col ∈ onCols, col ∈ L.columns) (h2 : ∀ col ∈ onCols, col ∈ R.columns)
    (hne : onCols ≠ []) (hnd : (outNames L R onCols suffixes).Nodup) :
    ∃ outI outO : DataFrame, L.join R onCols "inner" suffixes = .ok outI ∧
      L.join R onCols "outer" suffixes = .ok outO ∧
      outO.cols = colsOfRows (outNames L R onCols suffixes)
        (innerPss L R onCols suffixes
          ++ (unmatchedLeft L R onCols).map (leftNullPairs L R onCols suffixes)
          ++ (unmatchedRight L R onCols).map (rightNullPairs L R onCols suffixes)) ∧
      outO.len = outI.len + (unmatchedLeft L R onCols).length
        + (unmatchedRight L R onCols).length ∧
      (∀ i ∈ unmatchedLeft L R onCols,
        dGet (right_index R onCols) (keyOf L onCols i) = []) ∧
      (∀ i ∈ List.range L.len, i ∉ unmatchedLeft L R onCols →
        dGet (right_index R onCols) (keyOf L onCols i) ≠ []) ∧
      (∀ j ∈ unmatchedRight L R onCols,
        keyOf R onCols j ∉ (List.range L.len).map (keyOf L onCols)) ∧
      (∀ j ∈ List.range R.len, j ∉ unmatchedRight L R onCols →
        keyOf R onCols j ∈ (List.range L.len).map (keyOf L onCols)) := by
  refine ⟨_, _, join_inner_eq L R onCols suffixes h1 h2 hnd,
    join_outer_eq L R onCols suffixes h1 h2 hnd, rfl, ?_, ?_, ?_, ?_, ?_⟩
  · rw [len_colsOfRows _ _ (outNames_ne_nil L R onCols suffixes hne),
      len_colsOfRows _ _ (outNames_ne_nil L R onCols suffixes hne)]
    simp [List.length_append]
    omega
  · intro i hi
    rw [unmatchedLeft] at hi
    simp only [List.mem_filter, decide_eq_true_eq] at hi
    exact hi.2
  · intro i hir hnot
    rw [unmatchedLeft] at hnot
    simp only [List.mem_filter, decide_eq_true_eq, hir, true_and] at hnot
    exact hnot
  · intro j hj
    rw [unmatchedRight] at hj
    simp only [List.mem_filter, decide_eq_true_eq] at hj
    exact hj.2
  · intro j hjr hnot
    rw [unmatchedRight] at hnot
    simp only [List.mem_filter, decide_eq_true_eq, hjr, true_and] at hnot
    exact not_not.mp hnot

/-- C3 witness: the inner-join row-count theorem at concrete tables with
a fan-out key. -/
theorem inner_join_rowcount_witness :
    (    (∀ col ∈ ["id"], col ∈ (DataFrame.mk [("id", [Value.int 1, Value.int 2, Value.int 2]), ("l", [Value.str "a", Value.str "b", Value.str "c"])]).columns) ∧
    (∀ col ∈ ["id"], col ∈ (DataFrame.mk [("id", [Value.int 2, Value.int 2, Value.int 3]), ("r", [Value.str "x", Value.str "y", Value.str "z"])]).columns) ∧
    (["id"] : List String) ≠ [] ∧
    (outNames (DataFrame.mk [("id", [Value.int 1, Value.int 2, Value.int 2]), ("l", [Value.str "a", Value.str "b", Value.str "c"])]) (DataFrame.mk [("id", [Value.int 2, Value.int 2, Value.int 3]), ("r", [Value.str "x", Value.str "y", Value.str "z"])]) ["id"] ("_x", "_y")).Nodup) ∧
    (∃ out : DataFrame, DataFrame.join (DataFrame.mk [("id", [Value.int 1, Value.int 2, Value.int 2]), ("l", [Value.str "a", Value.str "b", Value.str "c"])]) (DataFrame.mk [("id", [Value.int 2, Value.int 2, Value.int 3]), ("r", [Value.str "x", Value.str "y", Value.str "z"])]) ["id"] "inner" ("_x", "_y") = .ok out ∧
      out.cols = colsOfRows (outNames (DataFrame.mk [("id", [Value.int 1, Value.int 2, Value.int 2]), ("l", [Value.str "a", Value.str "b", Value.str "c"])]) (DataFrame.mk [("id", [Value.int 2, Value.int 2, Value.int 3]), ("r", [Value.str "x", Value.str "y", Value.str "z"])]) ["id"] ("_x", "_y")) (innerPss (DataFrame.mk [("id", [Value.int 1, Value.int 2, Value.int 2]), ("l", [Value.str "a", Value.str "b", Value.str "c"])]) (DataFrame.mk [("id", [Value.int 2, Value.int 2, Value.int 3]), ("r", [Value.str "x", Value.str "y", Value.str "z"])]) ["id"] ("_x", "_y")) ∧
      out.len = ∑ k ∈ (((List.range (DataFrame.mk [("id", [Value.int 1, Value.int 2, Value.int 2]), ("l", [Value.str "a", Value.str "b", Value.str "c"])]).len).map (keyOf (DataFrame.mk [("id", [Value.int 1, Value.int 2, Value.int 2]), ("l", [Value.str "a", Value.str "b", Value.str "c"])]) ["id"])).toFinset
          ∩ ((List.range (DataFrame.mk [("id", [Value.int 2, Value.int 2, Value.int 3]), ("r", [Value.str "x", Value.str "y", Value.str "z"])]).len).map (keyOf (DataFrame.mk [("id", [Value.int 2, Value.int 2, Value.int 3]), ("r", [Value.str "x", Value.str "y", Value.str "z"])]) ["id"])).toFinset),
        (((List.range (DataFrame.mk [("id", [Value.int 1, Value.int 2, Value.int 2]), ("l", [Value.str "a", Value.str "b", Value.str "c"])]).len).map (keyOf (DataFrame.mk [("id", [Value.int 1, Value.int 2, Value.int 2]), ("l", [Value.str "a", Value.str "b", Value.str "c"])]) ["id"])).countP (fun k' => decide (k' = k)))
          * (((List.range (DataFrame.mk [("id", [Value.int 2, Value.int 2, Value.int 3]), ("r", [Value.str "x", Value.str "y", Value.str "z"])]).len).map (keyOf (DataFrame.mk [("id", [Value.int 2, Value.int 2, Value.int 3]), ("r", [Value.str "x", Value.str "y", Value.str "z"])]) ["id"])).countP (fun k' => decide (k' = k))) ∧
      (∀ i ∈ List.range (DataFrame.mk [("id", [Value.int 1, Value.int 2, Value.int 2]), ("l", [Value.str "a", Value.str "b", Value.str "c"])]).len,
        (dGet (right_index (DataFrame.mk [("id", [Value.int 2, Value.int 2, Value.int 3]), ("r", [Value.str "x", Value.str "y", Value.str "z"])]) ["id"]) (keyOf (DataFrame.mk [("id", [Value.int 1, Value.int 2, Value.int 2]), ("l", [Value.str "a", Value.str "b", Value.str "c"])]) ["id"] i)).length
          = ((List.range (DataFrame.mk [("id", [Value.int 2, Value.int 2, Value.int 3]), ("r", [Value.str "x", Value.str "y", Value.str "z"])]).len).map (keyOf (DataFrame.mk [("id", [Value.int 2, Value.int 2, Value.int 3]), ("r", [Value.str "x", Value.str "y", Value.str "z"])]) ["id"])).countP
              (fun k' => decide (k' = keyOf (DataFrame.mk [("id", [Value.int 1, Value.int 2, Value.int 2]), ("l", [Value.str "a", Value.str "b", Value.str "c"])]) ["id"] i)))) :=
  ⟨⟨by decide, by decide, by decide, by decide⟩,
    inner_join_rowcount (DataFrame.mk [("id", [Value.int 1, Value.int 2, Value.int 2]), ("l", [Value.str "a", Value.str "b", Value.str "c"])]) (DataFrame.mk [("id", [Value.int 2, Value.int 2, Value.int 3]), ("r", [Value.str "x", Value.str "y", Value.str "z"])]) ["id"] ("_x", "_y") (by decide) (by decide) (by decide) (by decide)⟩

/-- C2 witness: the left-join theorem at concrete tables with an
unmatched left row. -/
theorem left_join_nulls_witness :
    (    (∀ col ∈ ["id"], col ∈ (DataFrame.mk [("id", [Value.int 1, Value.int 2, Value.int 2]), ("l", [Value.str "a", Value.str "b", Value.str "c"])]).columns) ∧
    (∀ col ∈ ["id"], col ∈ (DataFrame.mk [("id", [Value.int 2, Value.int 2, Value.int 3]), ("r", [Value.str "x", Value.str "y", Value.str "z"])]).columns) ∧
    (["id"] : List String) ≠ [] ∧
    (outNames (DataFrame.mk [("id", [Value.int 1, Value.int 2, Value.int 2]), ("l", [Value.str "a", Value.str "b", Value.str "c"])]) (DataFrame.mk [("id", [Value.int 2, Value.int 2, Value.int 3]), ("r", [Value.str "x", Value.str "y", Value.str "z"])]) ["id"] ("_x", "_y")).Nodup) ∧
    (∃ out : DataFrame, DataFrame.join (DataFrame.mk [("id", [Value.int 1, Value.int 2, Value.int 2]), ("l", [Value.str "a", Value.str "b", Value.str "c"])]) (DataFrame.mk [("id", [Value.int 2, Value.int 2, Value.int 3]), ("r", [Value.str "x", Value.str "y", Value.str "z"])]) ["id"] "left" ("_x", "_y") = .ok out ∧
      out.cols = colsOfRows (outNames (DataFrame.mk [("id", [Value.int 1, Value.int 2, Value.int 2]), ("l", [Value.str "a", Value.str "b", Value.str "c"])]) (DataFrame.mk [("id", [Value.int 2, Value.int 2, Value.int 3]), ("r", [Value.str "x", Value.str "y", Value.str "z"])]) ["id"] ("_x", "_y")) (leftPss (DataFrame.mk [("id", [Value.int 1, Value.int 2, Value.int 2]), ("l", [Value.str "a", Value.str "b", Value.str "c"])]) (DataFrame.mk [("id", [Value.int 2, Value.int 2, Value.int 3]), ("r", [Value.str "x", Value.str "y", Value.str "z"])]) ["id"] ("_x", "_y")) ∧
      out.len = (innerPss (DataFrame.mk [("id", [Value.int 1, Value.int 2, Value.int 2]), ("l", [Value.str "a", Value.str "b", Value.str "c"])]) (DataFrame.mk [("id", [Value.int 2, Value.int 2, Value.int 3]), ("r", [Value.str "x", Value.str "y", Value.str "z"])]) ["id"] ("_x", "_y")).length
        + (unmatchedLeft (DataFrame.mk [("id", [Value.int 1, Value.int 2, Value.int 2]), ("l", [Value.str "a", Value.str "b", Value.str "c"])]) (DataFrame.mk [("id", [Value.int 2, Value.int 2, Value.int 3]), ("r", [Value.str "x", Value.str "y", Value.str "z"])]) ["id"]).length ∧
      (∀ i ∈ unmatchedLeft (DataFrame.mk [("id", [Value.int 1, Value.int 2, Value.int 2]), ("l", [Value.str "a", Value.str "b", Value.str "c"])]) (DataFrame.mk [("id", [Value.int 2, Value.int 2, Value.int 3]), ("r", [Value.str "x", Value.str "y", Value.str "z"])]) ["id"],
        dGet (right_index (DataFrame.mk [("id", [Value.int 2, Value.int 2, Value.int 3]), ("r", [Value.str "x", Value.str "y", Value.str "z"])]) ["id"]) (keyOf (DataFrame.mk [("id", [Value.int 1, Value.int 2, Value.int 2]), ("l", [Value.str "a", Value.str "b", Value.str "c"])]) ["id"] i) = [] ∧
        ∀ c ∈ right_cols (DataFrame.mk [("id", [Value.int 2, Value.int 2, Value.int 3]), ("r", [Value.str "x", Value.str "y", Value.str "z"])]) ["id"],
          pval (leftNullPairs (DataFrame.mk [("id", [Value.int 1, Value.int 2, Value.int 2]), ("l", [Value.str "a", Value.str "b", Value.str "c"])]) (DataFrame.mk [("id", [Value.int 2, Value.int 2, Value.int 3]), ("r", [Value.str "x", Value.str "y", Value.str "z"])]) ["id"] ("_x", "_y") i)
            (outColName (overlapCols (DataFrame.mk [("id", [Value.int 1, Value.int 2, Value.int 2]), ("l", [Value.str "a", Value.str "b", Value.str "c"])]) (DataFrame.mk [("id", [Value.int 2, Value.int 2, Value.int 3]), ("r", [Value.str "x", Value.str "y", Value.str "z"])]) ["id"]) ("_x", "_y").2 c) = Value.none) ∧
      Value.none ≠ Value.str "NA" ∧ Value.none ≠ Value.str "") :=
  ⟨⟨by decide, by decide, by decide, by decide⟩,
    left_join_nulls (DataFrame.mk [("id", [Value.int 1, Value.int 2, Value.int 2]), ("l", [Value.str "a", Value.str "b", Value.str "c"])]) (DataFrame.mk [("id", [Value.int 2, Value.int 2, Value.int 3]), ("r", [Value.str "x", Value.str "y", Value.str "z"])]) ["id"] ("_x", "_y") (by decide) (by decide) (by decide) (by decide)⟩

/-- C4 witness: the outer-join theorem at concrete tables where one key
matches several rows on both sides and both sides also have unmatched
rows. -/
theorem outer_join_phases_witness :
    (    (∀ col ∈ ["id"], col ∈ (DataFrame.mk [("id", [Value.int 1, Value.int 2, Value.int 2]), ("l", [Value.str "a", Value.str "b", Value.str "c"])]).columns) ∧
    (∀ col ∈ ["id"], col ∈ (DataFrame.mk [("id", [Value.int 2, Value.int 2, Value.int 3]), ("r", [Value.str "x", Value.str "y", Value.str "z"])]).columns) ∧
    (["id"] : List String) ≠ [] ∧
    (outNames (DataFrame.mk [("id", [Value.int 1, Value.int 2, Value.int 2]), ("l", [Value.str "a", Value.str "b", Value.str "c"])]) (DataFrame.mk [("id", [Value.int 2, Value.int 2, Value.int 3]), ("r", [Value.str "x", Value.str "y", Value.str "z"])]) ["id"] ("_x", "_y")).Nodup) ∧
    (∃ outI outO : DataFrame, DataFrame.join (DataFrame.mk [("id", [Value.int 1, Value.int 2, Value.int 2]), ("l", [Value.str "a", Value.str "b", Value.str "c"])]) (DataFrame.mk [("id", [Value.int 2, Value.int 2, Value.int 3]), ("r", [Value.str "x", Value.str "y", Value.str "z"])]) ["id"] "inner" ("_x", "_y") = .ok outI ∧
      DataFrame.join (DataFrame.mk [("id", [Value.int 1, Value.int 2, Value.int 2]), ("l", [Value.str "a", Value.str "b", Value.str "c"])]) (DataFrame.mk [("id", [Value.int 2, Value.int 2, Value.int 3]), ("r", [Value.str "x", Value.str "y", Value.str "z"])]) ["id"] "outer" ("_x", "_y") = .ok outO ∧
      outO.cols = colsOfRows (outNames (DataFrame.mk [("id", [Value.int 1, Value.int 2, Value.int 2]), ("l", [Value.str "a", Value.str "b", Value.str "c"])]) (DataFrame.mk [("id", [Value.int 2, Value.int 2, Value.int 3]), ("r", [Value.str "x", Value.str "y", Value.str "z"])]) ["id"] ("_x", "_y"))
        (innerPss (DataFrame.mk [("id", [Value.int 1, Value.int 2, Value.int 2]), ("l", [Value.str "a", Value.str "b", Value.str "c"])]) (DataFrame.mk [("id", [Value.int 2, Value.int 2, Value.int 3]), ("r", [Value.str "x", Value.str "y", Value.str "z"])]) ["id"] ("_x", "_y")
          ++ (unmatchedLeft (DataFrame.mk [("id", [Value.int 1, Value.int 2, Value.int 2]), ("l", [Value.str "a", Value.str "b", Value.str "c"])]) (DataFrame.mk [("id", [Value.int 2, Value.int 2, Value.int 3]), ("r", [Value.str "x", Value.str "y", Value.str "z"])]) ["id"]).map (leftNullPairs (DataFrame.mk [("id", [Value.int 1, Value.int 2, Value.int 2]), ("l", [Value.str "a", Value.str "b", Value.str "c"])]) (DataFrame.mk [("id", [Value.int 2, Value.int 2, Value.int 3]), ("r", [Value.str "x", Value.str "y", Value.str "z"])]) ["id"] ("_x", "_y"))
          ++ (unmatchedRight (DataFrame.mk [("id", [Value.int 1, Value.int 2, Value.int 2]), ("l", [Value.str "a", Value.str "b", Value.str "c"])]) (DataFrame.mk [("id", [Value.int 2, Value.int 2, Value.int 3]), ("r", [Value.str "x", Value.str "y", Value.str "z"])]) ["id"]).map (rightNullPairs (DataFrame.mk [("id", [Value.int 1, Value.int 2, Value.int 2]), ("l", [Value.str "a", Value.str "b", Value.str "c"])]) (DataFrame.mk [("id", [Value.int 2, Value.int 2, Value.int 3]), ("r", [Value.str "x", Value.str "y", Value.str "z"])]) ["id"] ("_x", "_y"))) ∧
      outO.len = outI.len + (unmatchedLeft (DataFrame.mk [("id", [Value.int 1, Value.int 2, Value.int 2]), ("l", [Value.str "a", Value.str "b", Value.str "c"])]) (DataFrame.mk [("id", [Value.int 2, Value.int 2, Value.int 3]), ("r", [Value.str "x", Value.str "y", Value.str "z"])]) ["id"]).length
        + (unmatchedRight (DataFrame.mk [("id", [Value.int 1, Value.int 2, Value.int 2]), ("l", [Value.str "a", Value.str "b", Value.str "c"])]) (DataFrame.mk [("id", [Value.int 2, Value.int 2, Value.int 3]), ("r", [Value.str "x", Value.str "y", Value.str "z"])]) ["id"]).length ∧
      (∀ i ∈ unmatchedLeft (DataFrame.mk [("id", [Value.int 1, Value.int 2, Value.int 2]), ("l", [Value.str "a", Value.str "b", Value.str "c"])]) (DataFrame.mk [("id", [Value.int 2, Value.int 2, Value.int 3]), ("r", [Value.str "x", Value.str "y", Value.str "z"])]) ["id"],
        dGet (right_index (DataFrame.mk [("id", [Value.int 2, Value.int 2, Value.int 3]), ("r", [Value.str "x", Value.str "y", Value.str "z"])]) ["id"]) (keyOf (DataFrame.mk [("id", [Value.int 1, Value.int 2, Value.int 2]), ("l", [Value.str "a", Value.str "b", Value.str "c"])]) ["id"] i) = []) ∧
      (∀ i ∈ List.range (DataFrame.mk [("id", [Value.int 1, Value.int 2, Value.int 2]), ("l", [Value.str "a", Value.str "b", Value.str "c"])]).len, i ∉ unmatchedLeft (DataFrame.mk [("id", [Value.int 1, Value.int 2, Value.int 2]), ("l", [Value.str "a", Value.str "b", Value.str "c"])]) (DataFrame.mk [("id", [Value.int 2, Value.int 2, Value.int 3]), ("r", [Value.str "x", Value.str "y", Value.str "z"])]) ["id"] →
        dGet (right_index (DataFrame.mk [("id", [Value.int 2, Value.int 2, Value.int 3]), ("r", [Value.str "x", Value.str "y", Value.str "z"])]) ["id"]) (keyOf (DataFrame.mk [("id", [Value.int 1, Value.int 2, Value.int 2]), ("l", [Value.str "a", Value.str "b", Value.str "c"])]) ["id"] i) ≠ []) ∧
      (∀ j ∈ unmatchedRight (DataFrame.mk [("id", [Value.int 1, Value.int 2, Value.int 2]), ("l", [Value.str "a", Value.str "b", Value.str "c"])]) (DataFrame.mk [("id", [Value.int 2, Value.int 2, Value.int 3]), ("r", [Value.str "x", Value.str "y", Value.str "z"])]) ["id"],
        keyOf (DataFrame.mk [("id", [Value.int 2, Value.int 2, Value.int 3]), ("r", [Value.str "x", Value.str "y", Value.str "z"])]) ["id"] j ∉ (List.range (DataFrame.mk [("id", [Value.int 1, Value.int 2, Value.int 2]), ("l", [Value.str "a", Value.str "b", Value.str "c"])]).len).map (keyOf (DataFrame.mk [("id", [Value.int 1, Value.int 2, Value.int 2]), ("l", [Value.str "a", Value.str "b", Value.str "c"])]) ["id"])) ∧
      (∀ j ∈ List.range (DataFrame.mk [("id", [Value.int 2, Value.int 2, Value.int 3]), ("r", [Value.str "x", Value.str "y", Value.str "z"])]).len, j ∉ unmatchedRight (DataFrame.mk [("id", [Value.int 1, Value.int 2, Value.int 2]), ("l", [Value.str "a", Value.str "b", Value.str "c"])]) (DataFrame.mk [("id", [Value.int 2, Value.int 2, Value.int 3]), ("r", [Value.str "x", Value.str "y", Value.str "z"])]) ["id"] →
        keyOf (DataFrame.mk [("id", [Value.int 2, Value.int 2, Value.int 3]), ("r", [Value.str "x", Value.str "y", Value.str "z"])]) ["id"] j ∈ (List.range (DataFrame.mk [("id", [Value.int 1, Value.int 2, Value.int 2]), ("l", [Value.str "a", Value.str "b", Value.str "c"])]).len).map (keyOf (DataFrame.mk [("id", [Value.int 1, Value.int 2, Value.int 2]), ("l", [Value.str "a", Value.str "b", Value.str "c"])]) ["id"]))) :=
  ⟨⟨by decide, by decide, by decide, by decide⟩,
    outer_join_phases (DataFrame.mk [("id", [Value.int 1, Value.int 2, Value.int 2]), ("l", [Value.str "a", Value.str "b", Value.str "c"])]) (DataFrame.mk [("id", [Value.int 2, Value.int 2, Value.int 3]), ("r", [Value.str "x", Value.str "y", Value.str "z"])]) ["id"] ("_x", "_y") (by decide) (by decide) (by decide) (by decide)⟩

/-! ### Grouped count aggregation -/

theorem find?_map_names (names : List String) (f : String → List Value) (nm : String)
    (hnm : nm ∈ names) :
    (names.map (fun n => (n, f n))).find? (fun c => decide (c.1 = nm)) = some (nm, f nm) := by
  induction names with
  | nil => simp at hnm
  | cons n ns ih =>
      simp only [List.map_cons, List.find?_cons]
      by_cases h : n = nm
      · subst h; simp
      · simp only [h, decide_False, if_false]
        rcases List.mem_cons.mp hnm with he | hmem
        · exact absurd he.symm h
        · exact ih hmem

theorem getColD_colsOfRows (names : List String) (pss : List (List (String × Value)))
    (nm : String) (hnm : nm ∈ names) (hpss : pss ≠ []) :
    getColD ⟨colsOfRows names pss⟩ nm = pss.map (fun ps => pval ps nm) := by
  rw [getColD, colsOfRows]
  rw [if_neg (by simpa [List.isEmpty_iff] using hpss)]
  rw [find?_map_names names (fun n => pss.map (fun ps => pval ps n)) nm hnm]

theorem foldlM_pure_ok {α β : Type} (f : β → α → Except PyError β)
    (g : β → α → β) (hf : ∀ b a, f b a = .ok (g b a)) :
    ∀ (l : List α) (b : β), l.foldlM f b = .ok (l.foldl g b) := by
  intro l
  induction l with
  | nil => intro b; rfl
  | cons x xs ih =>
      intro b
      rw [List.foldlM_cons, hf]
      simpa using ih (g b x)

theorem grouped_agg_count_raw (df : DataFrame) (group_cols : List String) (X : String)
    (hX : X ∈ df.columns) :
    grouped_agg df group_cols [(X, ["count"])]
      = mkDF ((build_groups df group_cols).foldl (fun acc g =>
          emitPairs acc (group_cols.enum.map (fun p => (p.2, g.1.getD p.1 Value.none))
            ++ [(X, Value.int g.2.length)])) []) := by
  rw [grouped_agg]
  have hsteps : ∀ (result_data : List (String × List Value)) (g : List Value × List Nat),
      ((do
        let (group_key, indices) := g
        let result_data := group_cols.enum.foldl
          (fun acc p => dAppend acc p.2 (group_key.getD p.1 Value.none)) result_data
        ([(X, ["count"])] : List (String × List String)).foldlM (fun acc p => do
          let (col, funcs) := p
          if col ∈ df.columns then
            let group_values := indices.map (fun idx => (getColD df col).getD idx Value.none)
            funcs.foldlM (fun acc func => do
              let agg_value ← apply_aggregation group_values func
              let result_key := if 1 < funcs.length then col ++ "_" ++ func else col
              pure (dAppend acc result_key agg_value)) acc
          else .error PyError.keyError) result_data) :
        Except PyError (List (String × List Value)))
      = .ok (emitPairs result_data
          (group_cols.enum.map (fun p => (p.2, g.1.getD p.1 Value.none))
            ++ [(X, Value.int g.2.length)])) := by
    intro acc g
    obtain ⟨gk, idxs⟩ := g
    simp only [List.foldlM_cons, List.foldlM_nil, if_pos hX, List.length_map]
    rw [emitPairs_append]
    rw [show emitPairs acc (List.map (fun p => (p.2, (gk, idxs).1.getD p.1 Value.none))
          group_cols.enum)
        = List.foldl (fun a p => dAppend a p.2 ((gk, idxs).1.getD p.1 Value.none)) acc
            group_cols.enum from by rw [emitPairs, List.foldl_map]]
    rw [show apply_aggregation
          (idxs.map (fun idx => (getColD df X).getD idx Value.none)) "count"
        = Except.ok (Value.int idxs.length) from by
      show Except.ok (Value.int
          (idxs.map (fun idx => (getColD df X).getD idx Value.none)).length)
        = Except.ok (Value.int idxs.length)
      rw [List.length_map]]
    rfl
  rw [foldlM_pure_ok _ _ hsteps (build_groups df group_cols) []]
  rfl

theorem grouped_agg_count_eq (df : DataFrame) (group_cols : List String) (X : String)
    (hX : X ∈ df.columns) (hnd : group_cols.Nodup) (hXg : X ∉ group_cols) :
    grouped_agg df group_cols [(X, ["count"])]
      = .ok ⟨colsOfRows (group_cols ++ [X])
          ((build_groups df group_cols).map (fun g =>
            group_cols.enum.map (fun p => (p.2, g.1.getD p.1 Value.none))
              ++ [(X, Value.int g.2.length)]))⟩ := by
  rw [grouped_agg_count_raw df group_cols X hX]
  have hfold : (build_groups df group_cols).foldl (fun acc g =>
        emitPairs acc (group_cols.enum.map (fun p => (p.2, g.1.getD p.1 Value.none))
          ++ [(X, Value.int g.2.length)])) []
      = ((build_groups df group_cols).map (fun g =>
          group_cols.enum.map (fun p => (p.2, g.1.getD p.1 Value.none))
            ++ [(X, Value.int g.2.length)])).foldl emitPairs [] := by
    rw [List.foldl_map]
  rw [hfold]
  have hw : ∀ q ∈ (build_groups df group_cols).map (fun g =>
        group_cols.enum.map (fun p => (p.2, g.1.getD p.1 Value.none))
          ++ [(X, Value.int g.2.length)]),
      q.map Prod.fst = group_cols ++ [X] := by
    intro q hq
    obtain ⟨g, hg, rfl⟩ := List.mem_map.mp hq
    simp only [List.map_append, List.map_map, List.map_cons, List.map_nil]
    rw [show (Prod.fst ∘ fun p : Nat × String => (p.2, g.1.getD p.1 Value.none))
          = Prod.snd from funext (fun _ => rfl)]
    rw [List.enum_map_snd]
  have hnames : (group_cols ++ [X]).Nodup := by
    rw [List.nodup_append]
    exact ⟨hnd, List.nodup_singleton X, fun a ha hb => hXg ((List.mem_singleton.mp hb) ▸ ha)⟩
  rw [foldl_emitPairs (group_cols ++ [X]) _ hw hnames]
  exact mkDF_colsOfRows _ _

/-- **C8**: for every table and group columns (distinct, not containing the
counted column, which must exist), `groupBy(cols).agg({X: 'count'})` succeeds
and produces exactly one output row per distinct value-tuple of the group
columns (row count = number of distinct key tuples), the groups appear in the
order their key is first seen while scanning rows in original order (the group
key sequence is the first-seen dedup of the row key sequence, and its entries
are ordered by first occurrence index), the output's `X` column holds the
per-group row counts, those counts sum to the table's row count, and (when the
table is nonempty) the output columns are the group columns followed by `X`. -/
theorem groupby_count (df : DataFrame) (group_cols : List String) (X : String)
    (hX : X ∈ df.columns) (hnd : group_cols.Nodup) (hXg : X ∉ group_cols) :
    ∃ out : DataFrame,
      grouped_agg df group_cols [(X, ["count"])] = .ok out ∧
      out.len = ((List.range df.len).map (keyOf df group_cols)).toFinset.card ∧
      (build_groups df group_cols).map Prod.fst
        = seenKeys ((List.range df.len).map (keyOf df group_cols)) ∧
      ((build_groups df group_cols).map Prod.fst).Pairwise
        (fun a b =>
          ((List.range df.len).map (keyOf df group_cols)).findIdx (fun k => decide (k = a))
            < ((List.range df.len).map (keyOf df group_cols)).findIdx
                (fun k => decide (k = b))) ∧
      getColD out X = (build_groups df group_cols).map (fun g => Value.int g.2.length) ∧
      ((build_groups df group_cols).map (fun g => g.2.length)).sum = df.len ∧
      (0 < df.len → out.columns = group_cols ++ [X]) := by
  have hkeys : (build_groups df group_cols).map Prod.fst
      = seenKeys ((List.range df.len).map (keyOf df group_cols)) := by
    rw [build_groups]
    exact keys_foldl_dAppend (List.range df.len) (keyOf df group_cols) (fun i => i)
  refine ⟨⟨colsOfRows (group_cols ++ [X])
      ((build_groups df group_cols).map (fun g =>
        group_cols.enum.map (fun p => (p.2, g.1.getD p.1 Value.none))
          ++ [(X, Value.int g.2.length)]))⟩,
    grouped_agg_count_eq df group_cols X hX hnd hXg, ?_, hkeys, ?_, ?_, ?_, ?_⟩
  · rw [len_colsOfRows _ _ (by simp)]
    rw [List.length_map]
    have h1 : (build_groups df group_cols).length
        = (seenKeys ((List.range df.len).map (keyOf df group_cols))).length := by
      rw [← hkeys, List.length_map]
    rw [h1, length_seenKeys]
  · rw [hkeys]
    exact pairwise_seenKeys ((List.range df.len).map (keyOf df group_cols))
  · by_cases hg : build_groups df group_cols = []
    · simp [hg, colsOfRows, getColD]
    · rw [getColD_colsOfRows _ _ X (by simp) (by simp [hg])]
      rw [List.map_map]
      apply List.map_congr_left
      intro g hgmem
      show pval (group_cols.enum.map (fun p => (p.2, g.1.getD p.1 Value.none))
          ++ [(X, Value.int g.2.length)]) X = Value.int g.2.length
      rw [pval_append_right _ (by
        rw [List.map_map,
          show (Prod.fst ∘ fun p : Nat × String => (p.2, g.1.getD p.1 Value.none)) = Prod.snd
            from funext (fun _ => rfl), List.enum_map_snd]
        exact hXg)]
      exact pval_cons_self X _ []
  · rw [build_groups]
    have h := sumLen_foldl_dAppend (List.range df.len) (keyOf df group_cols) (fun i => i) []
    simpa using h
  · intro hlen
    have hk0 : keyOf df group_cols 0 ∈ (List.range df.len).map (keyOf df group_cols) :=
      List.mem_map_of_mem _ (List.mem_range.mpr hlen)
    have hmem := (mem_seenKeys _ _).mpr hk0
    rw [← hkeys] at hmem
    have hg : build_groups df group_cols ≠ [] := by
      intro hc
      rw [hc] at hmem
      simp at hmem
    rw [columns_colsOfRows _ _ (by simp [hg])]

theorem groupby_count_witness :
    "Medal" ∈ (DataFrame.mk
        [("NOC", [Value.str "USA", Value.str "USA", Value.str "KEN"]),
         ("Medal", [Value.str "Gold", Value.str "Silver", Value.str "Gold"])]).columns ∧
    (["NOC"] : List String).Nodup ∧
    "Medal" ∉ (["NOC"] : List String) ∧
    (∃ out : DataFrame,
      grouped_agg (DataFrame.mk
          [("NOC", [Value.str "USA", Value.str "USA", Value.str "KEN"]),
           ("Medal", [Value.str "Gold", Value.str "Silver", Value.str "Gold"])])
          ["NOC"] [("Medal", ["count"])] = .ok out ∧
      out.len = ((List.range (DataFrame.mk
          [("NOC", [Value.str "USA", Value.str "USA", Value.str "KEN"]),
           ("Medal", [Value.str "Gold", Value.str "Silver", Value.str "Gold"])]).len).map
          (keyOf (DataFrame.mk
            [("NOC", [Value.str "USA", Value.str "USA", Value.str "KEN"]),
             ("Medal", [Value.str "Gold", Value.str "Silver", Value.str "Gold"])])
            ["NOC"])).toFinset.card ∧
      (build_groups (DataFrame.mk
          [("NOC", [Value.str "USA", Value.str "USA", Value.str "KEN"]),
           ("Medal", [Value.str "Gold", Value.str "Silver", Value.str "Gold"])])
          ["NOC"]).map Prod.fst
        = seenKeys ((List.range (DataFrame.mk
            [("NOC", [Value.str "USA", Value.str "USA", Value.str "KEN"]),
             ("Medal", [Value.str "Gold", Value.str "Silver", Value.str "Gold"])]).len).map
            (keyOf (DataFrame.mk
              [("NOC", [Value.str "USA", Value.str "USA", Value.str "KEN"]),
               ("Medal", [Value.str "Gold", Value.str "Silver", Value.str "Gold"])])
              ["NOC"])) ∧
      ((build_groups (DataFrame.mk
          [("NOC", [Value.str "USA", Value.str "USA", Value.str "KEN"]),
           ("Medal", [Value.str "Gold", Value.str "Silver", Value.str "Gold"])])
          ["NOC"]).map Prod.fst).Pairwise
        (fun a b =>
          ((List.range (DataFrame.mk
              [("NOC", [Value.str "USA", Value.str "USA", Value.str "KEN"]),
               ("Medal", [Value.str "Gold", Value.str "Silver", Value.str "Gold"])]).len).map
              (keyOf (DataFrame.mk
                [("NOC", [Value.str "USA", Value.str "USA", Value.str "KEN"]),
                 ("Medal", [Value.str "Gold", Value.str "Silver", Value.str "Gold"])])
                ["NOC"])).findIdx (fun k => decide (k = a))
            < ((List.range (DataFrame.mk
                [("NOC", [Value.str "USA", Value.str "USA", Value.str "KEN"]),
                 ("Medal", [Value.str "Gold", Value.str "Silver", Value.str "Gold"])]).len).map
                (keyOf (DataFrame.mk
                  [("NOC", [Value.str "USA", Value.str "USA", Value.str "KEN"]),
                   ("Medal", [Value.str "Gold", Value.str "Silver", Value.str "Gold"])])
                  ["NOC"])).findIdx (fun k => decide (k = b))) ∧
      getColD out "Medal" = (build_groups (DataFrame.mk
          [("NOC", [Value.str "USA", Value.str "USA", Value.str "KEN"]),
           ("Medal", [Value.str "Gold", Value.str "Silver", Value.str "Gold"])])
          ["NOC"]).map (fun g => Value.int g.2.length) ∧
      ((build_groups (DataFrame.mk
          [("NOC", [Value.str "USA", Value.str "USA", Value.str "KEN"]),
           ("Medal", [Value.str "Gold", Value.str "Silver", Value.str "Gold"])])
          ["NOC"]).map (fun g => g.2.length)).sum
        = (DataFrame.mk
            [("NOC", [Value.str "USA", Value.str "USA", Value.str "KEN"]),
             ("Medal", [Value.str "Gold", Value.str "Silver", Value.str "Gold"])]).len ∧
      (0 < (DataFrame.mk
          [("NOC", [Value.str "USA", Value.str "USA", Value.str "KEN"]),
           ("Medal", [Value.str "Gold", Value.str "Silver", Value.str "Gold"])]).len →
        out.columns = ["NOC"] ++ ["Medal"])) :=
  ⟨by decide, by decide, by decide,
    groupby_count (DataFrame.mk
        [("NOC", [Value.str "USA", Value.str "USA", Value.str "KEN"]),
         ("Medal", [Value.str "Gold", Value.str "Silver", Value.str "Gold"])])
      ["NOC"] "Medal" (by decide) (by decide) (by decide)⟩
